import Mathlib

/-!
Verification of the session-keys TypeScript library (session-key lifecycle
manager, transaction builder, state store and encoding utilities).

Modelling conventions used throughout this file:
* JavaScript strings that the code manipulates character by character
  (hex strings, decimal amount strings, addresses) are modelled as
  List Char; opaque strings (error messages, transaction hashes) are
  modelled as Lean String values compared only for equality.
* JavaScript bigint and number values that the code only ever holds as
  non-negative integers are modelled as Nat.
* Fallible operations (promise rejections, thrown errors) are modelled
  with Except String; the normalisation step
  (error instanceof Error ? error : new Error(...)) is the identity here
  because every modelled error already carries its message.
* Every provider interaction (provider.request call) performed by an
  operation is recorded in an explicit request trace, so that theorems
  can speak about which RPC calls were or were not issued.
-/

namespace SessionKeys

/-- Decimal digit characters, as produced by the JavaScript
Number/BigInt toString conversion for a single digit value. -/
def digitChar (d : Nat) : Char :=
  match d with
  | 0 => '0' | 1 => '1' | 2 => '2' | 3 => '3' | 4 => '4'
  | 5 => '5' | 6 => '6' | 7 => '7' | 8 => '8' | 9 => '9'
  | _ => '?'

/-- Lowercase hexadecimal digit characters, as produced by the JavaScript
BigInt.toString(16) conversion for a single digit value. -/
def hexDigitChar (d : Nat) : Char :=
  match d with
  | 0 => '0' | 1 => '1' | 2 => '2' | 3 => '3' | 4 => '4'
  | 5 => '5' | 6 => '6' | 7 => '7' | 8 => '8' | 9 => '9'
  | 10 => 'a' | 11 => 'b' | 12 => 'c' | 13 => 'd' | 14 => 'e' | 15 => 'f'
  | _ => '?'

/-- Numeric value of a decimal digit character (ASCII offset 48), the
digit reading performed by the JavaScript BigInt constructor on a
decimal string. -/
def digitVal (c : Char) : Nat := c.toNat - 48

/-- Numeric value of one hexadecimal digit character as read by
parseInt(-, 16); the call sites only ever pass valid hex digits, other
characters are given value 0 here. -/
def hexCharVal (c : Char) : Nat :=
  match c with
  | '0' => 0 | '1' => 1 | '2' => 2 | '3' => 3 | '4' => 4
  | '5' => 5 | '6' => 6 | '7' => 7 | '8' => 8 | '9' => 9
  | 'a' => 10 | 'b' => 11 | 'c' => 12 | 'd' => 13 | 'e' => 14 | 'f' => 15
  | 'A' => 10 | 'B' => 11 | 'C' => 12 | 'D' => 13 | 'E' => 14 | 'F' => 15
  | _ => 0

/-- Minimal big-endian digit expansion of a natural number in the given
base, written with explicit fuel so that the definition is structurally
recursive and kernel-reducible; fuel n is always sufficient because
n / base < n for positive n and base at least 2. Zero yields the empty
digit list (matching the canonical RLP integer form). -/
def natDigitsAux (base : Nat) : Nat → Nat → List Nat
  | 0, _ => []
  | fuel + 1, n => if n = 0 then [] else natDigitsAux base fuel (n / base) ++ [n % base]

/-- Minimal big-endian digits of n in the given base ([] for 0). -/
def natDigits (base n : Nat) : List Nat := natDigitsAux base n n

theorem natDigitsAux_fuel (base : Nat) (hb : 2 ≤ base) :
    ∀ fuel fuel' n, n ≤ fuel → n ≤ fuel' →
      natDigitsAux base fuel n = natDigitsAux base fuel' n := by
  intro fuel
  induction fuel with
  | zero =>
    intro fuel' n hn _
    interval_cases n
    cases fuel' <;> simp [natDigitsAux]
  | succ f ih =>
    intro fuel' n hn hn'
    cases fuel' with
    | zero =>
      interval_cases n
      · simp [natDigitsAux]
    | succ f' =>
      by_cases h0 : n = 0
      · simp [natDigitsAux, h0]
      · have hdiv : n / base < n := Nat.div_lt_self (Nat.pos_of_ne_zero h0) (by omega)
        simp only [natDigitsAux, if_neg h0]
        rw [ih f' (n / base) (by omega) (by omega)]

theorem natDigits_eq (base : Nat) (hb : 2 ≤ base) (n : Nat) :
    natDigits base n = if n = 0 then [] else natDigits base (n / base) ++ [n % base] := by
  by_cases h0 : n = 0
  · simp [natDigits, natDigitsAux, h0]
  · obtain ⟨m, rfl⟩ : ∃ m, n = m + 1 := ⟨n - 1, by omega⟩
    simp only [natDigits, natDigitsAux, if_neg h0]
    have hdiv : (m + 1) / base < m + 1 := Nat.div_lt_self (by omega) (by omega)
    rw [natDigitsAux_fuel base hb m ((m + 1) / base) ((m + 1) / base) (by omega) le_rfl]

theorem natDigits_digit_lt (base : Nat) (hb : 2 ≤ base) :
    ∀ n, ∀ d ∈ natDigits base n, d < base := by
  intro n
  induction n using Nat.strong_induction_on with
  | _ n ih =>
    intro d hd
    rw [natDigits_eq base hb] at hd
    by_cases h0 : n = 0
    · simp [h0] at hd
    · rw [if_neg h0] at hd
      rcases List.mem_append.mp hd with h | h
      · exact ih (n / base) (Nat.div_lt_self (Nat.pos_of_ne_zero h0) (by omega)) d h
      · simp at h
        subst h
        exact Nat.mod_lt _ (by omega)

theorem natDigits_ne_nil (base : Nat) (hb : 2 ≤ base) (n : Nat) (hn : 1 ≤ n) :
    natDigits base n ≠ [] := by
  rw [natDigits_eq base hb, if_neg (by omega)]
  simp

theorem natDigits_head_ne_zero (base : Nat) (hb : 2 ≤ base) :
    ∀ n, 1 ≤ n → ∀ d, (natDigits base n).head? = some d → d ≠ 0 := by
  intro n
  induction n using Nat.strong_induction_on with
  | _ n ih =>
    intro hn d hd
    rw [natDigits_eq base hb, if_neg (by omega)] at hd
    by_cases hsmall : n < base
    · have : n / base = 0 := Nat.div_eq_of_lt hsmall
      rw [this] at hd
      simp [natDigits, natDigitsAux, Nat.mod_eq_of_lt hsmall] at hd
      omega
    · have h1 : 1 ≤ n / base := Nat.one_le_div_iff (by omega) |>.mpr (by omega)
      have hne := natDigits_ne_nil base hb (n / base) h1
      rw [List.head?_append_of_ne_nil _ hne] at hd
      exact ih (n / base) (Nat.div_lt_self (by omega) (by omega)) h1 d hd

/-- Value of a big-endian digit list in the given base. -/
def valOfDigits (base : Nat) (l : List Nat) : Nat :=
  l.foldl (fun a d => base * a + d) 0

theorem valOfDigits_append (base : Nat) (l m : List Nat) :
    valOfDigits base (l ++ m) =
      valOfDigits base l * base ^ m.length + valOfDigits base m := by
  induction m using List.reverseRecOn with
  | nil => simp [valOfDigits]
  | append_singleton m d ih =>
    simp only [valOfDigits, ← List.append_assoc, List.foldl_append, List.foldl_cons,
      List.foldl_nil, List.length_append, List.length_cons, List.length_nil] at *
    rw [ih]
    ring

theorem natDigits_val (base : Nat) (hb : 2 ≤ base) :
    ∀ n, valOfDigits base (natDigits base n) = n := by
  intro n
  induction n using Nat.strong_induction_on with
  | _ n ih =>
    rw [natDigits_eq base hb]
    by_cases h0 : n = 0
    · simp [h0, valOfDigits]
    · rw [if_neg h0, valOfDigits_append,
        ih (n / base) (Nat.div_lt_self (Nat.pos_of_ne_zero h0) (by omega))]
      simp only [valOfDigits, List.length_cons, List.length_nil, pow_one, List.foldl_cons,
        List.foldl_nil, Nat.mul_zero, Nat.zero_add]
      have h := Nat.div_add_mod n base
      rw [Nat.mul_comm] at h
      omega

/-! Encoding utilities, translated from src/src/utils/encoding.ts.
JavaScript strings are modelled as List Char. -/

/-- Splitting a character list at every occurrence of a separator, the
behaviour of the JavaScript String.split method with a one-character
separator (an empty input yields one empty part, a trailing separator
yields a trailing empty part). -/
def splitOnChar (sep : Char) : List Char → List (List Char)
  | [] => [[]]
  | c :: cs =>
    match splitOnChar sep cs with
    | [] => [[c]]
    | p :: ps => if c = sep then [] :: p :: ps else (c :: p) :: ps

/-- Reading a decimal digit string as a number: the JavaScript BigInt
constructor applied to a string of decimal digits (BigInt of the empty
string is 0, matching foldl over the empty list). -/
def digitsToNat (l : List Char) : Nat :=
  l.foldl (fun a c => 10 * a + digitVal c) 0

/-- toHex from src/src/utils/encoding.ts: BigInt(value).toString(16)
(minimal lowercase hex digits), the dead fallback hexStr or-else the
one-digit string 0, then the 0x prefix. The source accepts
number/bigint/string input; every call site passes a non-negative
integer, modelled as Nat. -/
def toHex (n : Nat) : List Char :=
  '0' :: 'x' ::
    (let hexStr := (natDigits 16 n).map hexDigitChar
     if hexStr = [] then ['0'] else hexStr)

/-- Dropping one leading 0x marker: models hex.replace with the pattern
0x, which replaces only the first occurrence; every call site passes a
string that starts with 0x, where replace is exactly this prefix drop. -/
def strip0x (s : List Char) : List Char :=
  if s.take 2 = ['0', 'x'] then s.drop 2 else s

/-- Byte list of a hex digit string, two characters per byte: the loop
of hexToBytes in src/src/utils/encoding.ts (parseInt of each 2-character
substring, base 16). A trailing lone digit is dropped, matching the
floor division in new Uint8Array(cleanHex.length / 2); every call site
passes an even-length hex string. -/
def hexPairsToBytes : List Char → List Nat
  | a :: b :: rest => (16 * hexCharVal a + hexCharVal b) :: hexPairsToBytes rest
  | _ => []

/-- hexToBytes from src/src/utils/encoding.ts. -/
def hexToBytes (hex : List Char) : List Nat :=
  hexPairsToBytes (strip0x hex)

/-- One byte rendered as two lowercase hex characters:
byte.toString(16).padStart(2, the character 0), the per-byte step used
by sendTransaction when converting the RLP output to a hex string. -/
def byteHexChars (b : Nat) : List Char :=
  let s := (natDigits 16 b).map hexDigitChar
  List.replicate (2 - s.length) '0' ++ s

/-- Core of parseEther after the split on the dot: pad the fractional
part with trailing zeros to 18 digits (padEnd), truncate to 18 digits
(slice(0, 18)), concatenate behind the whole part and read the result
with BigInt. -/
def parseEtherParts (whole decimal : List Char) : Nat :=
  let paddedDecimal := (decimal ++ List.replicate (18 - decimal.length) '0').take 18
  digitsToNat (whole ++ paddedDecimal)

/-- parseEther from src/src/utils/encoding.ts: split the amount string
on the dot; the destructuring [whole, decimal = empty] keeps the first
two parts and defaults the fractional part to the empty string. -/
def parseEther (value : List Char) : Nat :=
  let parts := splitOnChar '.' value
  parseEtherParts (parts.headD []) ((parts.drop 1).headD [])

/-- Decimal digit string of a natural number, the JavaScript
BigInt/Number toString conversion (zero prints as the one-digit
string 0). -/
def decDigitsOf (n : Nat) : List Char :=
  if n = 0 then ['0'] else (natDigits 10 n).map digitChar

/-- formatEther from src/src/utils/encoding.ts, up to the final
parseFloat: the decimal string the source builds and passes to
parseFloat. For at most 18 digits the string is 0 dot the
18-zero-padded digits (padStart), otherwise the whole part is
slice(0, -18) and the fractional part slice(-18). The final parseFloat
converts this string to an IEEE-754 binary64 number; that conversion is
deliberately not modelled as an operation on exact values (see the
claim C8 theorems, which treat the float result abstractly as a dyadic
rational). -/
def formatEtherStr (wei : Nat) : List Char :=
  let ethString := decDigitsOf wei
  if ethString.length ≤ 18 then
    '0' :: '.' :: (List.replicate (18 - ethString.length) '0' ++ ethString)
  else
    ethString.take (ethString.length - 18) ++
      '.' :: ethString.drop (ethString.length - 18)

/-- Exact rational value denoted by a plain decimal string of the shape
whole, or whole dot fraction. This is the specification-side meaning of
a decimal ether amount string (the original numeric value in the words
of the spec). -/
def decValue (s : List Char) : ℚ :=
  match splitOnChar '.' s with
  | [w] => (digitsToNat w : ℚ)
  | [w, d] => (digitsToNat w : ℚ) + (digitsToNat d : ℚ) / 10 ^ d.length
  | _ => 0

/-- Dyadic rationals: exactly the numbers expressible as m / 2 ^ k.
Every finite IEEE-754 binary64 value (hence every possible result of
the parseFloat call inside formatEther) is of this form. -/
def IsDyadicRat (q : ℚ) : Prop := ∃ (m : ℤ) (k : ℕ), q = (m : ℚ) / 2 ^ k

/-! Model of the rlp npm package (the single runtime dependency), as
used by sendTransaction: input is a nested array of 0x-prefixed hex
strings. -/

/-- RLP input values occurring in this program: strings and nested
arrays. -/
inductive RlpItem where
  | str (s : List Char)
  | list (items : List RlpItem)

/-- Prepending a zero digit to odd-length hex strings (the padToEven
helper of the rlp package). -/
def padToEven (s : List Char) : List Char :=
  if s.length % 2 = 1 then '0' :: s else s

/-- Byte interpretation of a 0x-prefixed hex string input as done by the
rlp package toBytes helper: strip the 0x prefix, pad to even length and
convert hex digit pairs to bytes. -/
def rlpStrBytes (s : List Char) : List Nat :=
  hexPairsToBytes (padToEven (strip0x s))

/-- Length header of the rlp package: below 56 a single byte
offset + len, otherwise the byte length of len in minimal big-endian
form after the byte offset + 55 + that length. -/
def encodeLength (len offset : Nat) : List Nat :=
  if len < 56 then [offset + len]
  else (offset + 55 + (natDigits 256 len).length) :: natDigits 256 len

/-- String payload encoding of the rlp package: a single byte below 128
stands for itself, anything else gets a length header with offset
128. -/
def rlpEncodeBytes (b : List Nat) : List Nat :=
  if b.length = 1 ∧ b.headD 0 < 128 then b
  else encodeLength b.length 128 ++ b

mutual

/-- Recursive RLP encoding of the rlp package: strings through
rlpEncodeBytes, arrays as the concatenation of the encoded elements
behind a length header with offset 192. -/
def rlpEncode : RlpItem → List Nat
  | .str s => rlpEncodeBytes (rlpStrBytes s)
  | .list items =>
    let payload := rlpEncodeList items
    encodeLength payload.length 192 ++ payload

/-- Concatenated encodings of a list of RLP items. -/
def rlpEncodeList : List RlpItem → List Nat
  | [] => []
  | i :: is => rlpEncode i ++ rlpEncodeList is

end

/-! Transaction builder, translated from the two sendTransaction
variants in the repository (src/src/core/transaction.ts, and the later
variant carried in src/src/utils/encoding.ts with the nonce zero special
case and the fee fallback). -/

/-- TransactionParams from src/src/types/index.ts. The two fee fields
are strings in the source and are fed through BigInt before use; they
are modelled here as the parsed non-negative integers, with none for an
absent (or empty, hence falsy) field. -/
structure TransactionParams where
  toAddr : List Char
  data : Option (List Char)
  value : Option (List Char)
  nonce : Option Nat
  gasLimit : Option Nat
  maxFeePerGas : Option Nat
  maxPriorityFeePerGas : Option Nat
deriving DecidableEq

/-- Lowercasing of an ASCII character, the effect of the JavaScript
toLowerCase call on the address, value and data strings. -/
def toLowerChar (c : Char) : Char :=
  if 'A' ≤ c ∧ c ≤ 'Z' then Char.ofNat (c.toNat + 32) else c

/-- JavaScript toLowerCase on a string. -/
def jsLower (s : List Char) : List Char := s.map toLowerChar

/-- The final map over the transaction array: prepend 0x to any string
that does not already start with it. -/
def ensure0x (v : List Char) : List Char :=
  if v.take 2 = ['0', 'x'] then v else '0' :: 'x' :: v

/-- The value slot: txParams.value lowercased, or-else the string 0x0
(an absent value and an empty string are both falsy). -/
def txValueSlot (value : Option (List Char)) : List Char :=
  match value with
  | some s => if s = [] then ['0', 'x', '0'] else jsLower s
  | none => ['0', 'x', '0']

/-- The data slot: txParams.data lowercased, or-else the string 0x. -/
def txDataSlot (data : Option (List Char)) : List Char :=
  match data with
  | some s => if s = [] then ['0', 'x'] else jsLower s
  | none => ['0', 'x']

/-- The 12-element EIP-1559 transaction array built by the
sendTransaction variant in src/src/core/transaction.ts (numeric fields
through toHex, strings lowercased, empty access list, empty v r s
placeholders, then the map that guarantees a 0x prefix). -/
def txItems (chainIdInt nonce maxPriorityFeePerGas maxFeePerGas gasLimit : Nat)
    (tx : TransactionParams) : List RlpItem :=
  [ .str (ensure0x (toHex chainIdInt)),
    .str (ensure0x (toHex nonce)),
    .str (ensure0x (toHex maxPriorityFeePerGas)),
    .str (ensure0x (toHex maxFeePerGas)),
    .str (ensure0x (toHex gasLimit)),
    .str (ensure0x (jsLower tx.toAddr)),
    .str (ensure0x (txValueSlot tx.value)),
    .str (ensure0x (txDataSlot tx.data)),
    .list [],
    .str (ensure0x ['0', 'x']),
    .str (ensure0x ['0', 'x']),
    .str (ensure0x ['0', 'x']) ]

/-- The transaction array of the later sendTransaction variant (the one
carried in src/src/utils/encoding.ts): identical except that a zero
nonce is special-cased to the bare string 0x. -/
def txItemsVariant (chainIdInt nonce maxPriorityFeePerGas maxFeePerGas gasLimit : Nat)
    (tx : TransactionParams) : List RlpItem :=
  [ .str (ensure0x (toHex chainIdInt)),
    .str (ensure0x (if nonce = 0 then ['0', 'x'] else toHex nonce)),
    .str (ensure0x (toHex maxPriorityFeePerGas)),
    .str (ensure0x (toHex maxFeePerGas)),
    .str (ensure0x (toHex gasLimit)),
    .str (ensure0x (jsLower tx.toAddr)),
    .str (ensure0x (txValueSlot tx.value)),
    .str (ensure0x (txDataSlot tx.data)),
    .list [],
    .str (ensure0x ['0', 'x']),
    .str (ensure0x ['0', 'x']),
    .str (ensure0x ['0', 'x']) ]

/-- Steps 6 to 8 of sendTransaction: RLP encode the transaction array,
render the bytes as a hex string, parse that string back to bytes and
prepend the EIP-1559 type byte 2. (The subsequent btoa step is a
base64 rendering of exactly these bytes and is kept abstract; the
request trace records these bytes as the submitted payload.) -/
def txBytes (items : List RlpItem) : List Nat :=
  let rlpEncoded := rlpEncode (.list items)
  let rlpHex := (rlpEncoded.map byteHexChars).flatten
  2 :: hexToBytes ('0' :: 'x' :: rlpHex)

/-! State store, translated from the state module carried in
src/src/core/transaction.ts (getState, updateState, subscribeToState,
persisted-state load, getters). -/

/-- The balance snapshot record. In the source its two fields are
JavaScript numbers computed through formatEther and
estimateTransactions; the state-store claims only ever store and copy
these values, so an integer stand-in keeps the record decidable. -/
structure BalanceInfo where
  eth : Int
  estimatedTransactions : Int
deriving DecidableEq

/-- SessionKeyState from src/src/types/index.ts. -/
structure SessionKeyState where
  sessionKey : Option (List Char)
  isActive : Bool
  balance : Option BalanceInfo
  isLoading : Bool
  error : Option String
deriving DecidableEq

/-- A partial update record (Partial of SessionKeyState): none means the
field is not named in the partial. -/
structure StatePatch where
  sessionKey : Option (Option (List Char))
  isActive : Option Bool
  balance : Option (Option BalanceInfo)
  isLoading : Option Bool
  error : Option (Option String)
deriving DecidableEq

/-- The merge step of updateState:
state = spread of state then spread of updates. Fields named in the
partial win, all others keep their previous value. (The surrounding
busy-poll mutex, the persistence write and the subscriber notification
of updateState do not change the merged record.) -/
def updateState (s : SessionKeyState) (u : StatePatch) : SessionKeyState :=
  { sessionKey := u.sessionKey.getD s.sessionKey
    isActive := u.isActive.getD s.isActive
    balance := u.balance.getD s.balance
    isLoading := u.isLoading.getD s.isLoading
    error := u.error.getD s.error }

/-- The initial state record. -/
def initialState : SessionKeyState :=
  { sessionKey := none, isActive := false, balance := none,
    isLoading := false, error := none }

/-- The persisted blob: exactly the sessionKey and isActive fields, as
written by updateState and read back at module initialisation. -/
structure PersistedBlob where
  sessionKey : Option (List Char)
  isActive : Bool
deriving DecidableEq

/-- The persisted-state load at module initialisation:
state = spread of state with sessionKey and isActive taken from the
parsed blob. -/
def loadPersisted (blob : PersistedBlob) (s : SessionKeyState) : SessionKeyState :=
  { s with sessionKey := blob.sessionKey, isActive := blob.isActive }

/-- subscribeToState: subscribers.add(callback) on a JavaScript Set. A
Set keyed by identity is modelled as a duplicate-free list in insertion
order; add is a no-op when the callback is already present. The type of
callbacks is kept abstract, compared by identity. -/
def subscribeToState {α : Type} [DecidableEq α] (c : α) (subs : List α) : List α :=
  if c ∈ subs then subs else subs ++ [c]

/-- The returned unsubscribe capability: subscribers.delete(callback). -/
def unsubscribeDelete {α : Type} [DecidableEq α] (c : α) (subs : List α) : List α :=
  subs.filter (fun x => !(x == c))

/-- The invariant stated by the spec: isActive true implies sessionKey
non-null. -/
def StateInv (s : SessionKeyState) : Prop :=
  s.isActive = true → s.sessionKey ≠ none

/-! Session-key lifecycle manager, translated from the lifecycle module
(src/unnamed/part_000: createSessionKey, fundSessionKey,
activateSessionKey, deactivateSessionKey, deleteSessionKey,
cleanupSessionKey), and the transaction builder. -/

/-- The well-known TEN addresses, identified by role: the values live in
src/src/utils/constants.ts which is not part of the provided sources,
and every claim only distinguishes which well-known address a
storage-read actuation call targets. -/
inductive SKAddr where
  | create | retrieve | activate | deactivate | delete | execute
deriving DecidableEq

/-- One provider.request call, as recorded in an operation trace. -/
inductive Request where
  | chainId
  | getStorage (addr : SKAddr)
  | execute (payload : List Nat)
  | getTransactionCount
  | feeHistory
  | estimateGas
  | sendRawTransfer (valueWei : Nat)
  | getReceipt
deriving DecidableEq

/-- Actuation calls in the sense of the spec: the storage-read RPC at a
well-known address (the lifecycle calls and the session-execution
submission). The chain-id, nonce, fee, gas, receipt and plain transfer
queries are not actuation calls. -/
def isActuation : Request → Bool
  | .getStorage _ => true
  | .execute _ => true
  | _ => false

/-- The eth_feeHistory response shape used by the code (baseFeePerGas
and reward arrays, values already parsed to integers). -/
structure FeeHistoryResp where
  baseFeePerGas : List Nat
  reward : List (List Nat)
deriving DecidableEq

/-- The external provider, modelled as the (deterministic) responses it
gives to each kind of request. The receipts list is the finite window of
eth_getTransactionReceipt poll answers being modelled; the funding poll
keeps running past it. -/
structure Provider where
  chainId : Nat
  storageResp : SKAddr → Except String (List Char)
  txCount : Except String Nat
  feeHist : Except String FeeHistoryResp
  gasEstimate : Except String Nat
  sendTransfer : Except String String
  receipts : List (Option String)
  executeResp : Except String String

/-- Outcome of one lifecycle or transaction operation: the returned or
thrown value, the state-store record after the operation, and the trace
of provider.request calls it issued. -/
structure OpResult (α : Type) where
  result : Except String α
  state : SessionKeyState
  trace : List Request

/-- Outcome of fundSessionKey, whose confirmation poll may still be
running at the end of the modelled receipt window: result none means the
call has not returned yet. -/
structure FundResult where
  result : Option (Except String String)
  state : SessionKeyState
  trace : List Request

/-- Modelled from the spec: TEN_CHAIN_ID lives in
src/src/utils/constants.ts, which is not part of the provided sources;
the spec names 443 as the example target chain id. Every claim below
depends only on whether the reported chain id equals this constant. -/
def TEN_CHAIN_ID : Nat := 443

/-- The error message thrown by checkTenNetwork. -/
def wrongNetworkMsg : String :=
  "Session Keys is only for TEN chain, please add or switch to TEN."

/-- The error message thrown by sendTransaction without a session key. -/
def noSessionKeyMsg : String :=
  "No active session key. Create and activate a session key first."

/-- The error message thrown by createSessionKey when creation and
retrieval both return the empty sentinel. -/
def creationFailedMsg : String :=
  "Failed to create session key - both creation and retrieval returned empty response"

/-- Stand-in for the JavaScript TypeError raised when indexing into a
missing fee-history array or passing undefined to BigInt. -/
def typeErrorMsg : String := "TypeError"

/-- The canonical empty sentinel: 0x followed by 64 zero digits. -/
def zeroSentinel : List Char := '0' :: 'x' :: List.replicate 64 '0'

/-- Address extraction from a 32-byte storage response:
0x concatenated with response.slice(-40). -/
def extractAddr (resp : List Char) : List Char :=
  '0' :: 'x' :: resp.drop (resp.length - 40)

/-- The patch written at the start of every operation:
isLoading true, error null. -/
def pStart : StatePatch := ⟨none, none, none, some true, some none⟩

/-- The patch written in every catch block: error err, isLoading
false. -/
def pErr (e : String) : StatePatch := ⟨none, none, none, some false, some (some e)⟩

/-- The patch written on plain success: isLoading false. -/
def pDone : StatePatch := ⟨none, none, none, some false, none⟩

/-- The patch written by createSessionKey on success: sessionKey,
isLoading false. -/
def pKey (a : List Char) : StatePatch := ⟨some (some a), none, none, some false, none⟩

/-- The patch written by activateSessionKey and deactivateSessionKey on
success: isActive, isLoading false. -/
def pActive (b : Bool) : StatePatch := ⟨none, some b, none, some false, none⟩

/-- The reset patch written by deleteSessionKey and cleanupSessionKey on
success: sessionKey null, isActive false, balance null, isLoading
false. -/
def pReset : StatePatch := ⟨some none, some false, some none, some false, none⟩

/-- createSessionKey from the lifecycle module. The setupProviderListeners
call before the network check only attaches event listeners and performs
no provider.request call, so it leaves no trace entry; the
clearPersistedState bookkeeping of deleteSessionKey likewise touches only
browser storage. -/
def createSessionKey (p : Provider) (s : SessionKeyState) : OpResult (List Char) :=
  let s1 := updateState s pStart
  if p.chainId = TEN_CHAIN_ID then
    match p.storageResp .create with
    | .error e =>
      ⟨.error e, updateState s1 (pErr e), [.chainId, .getStorage .create]⟩
    | .ok response =>
      if response = [] ∨ response = zeroSentinel then
        match p.storageResp .retrieve with
        | .error e =>
          ⟨.error e, updateState s1 (pErr e),
            [.chainId, .getStorage .create, .getStorage .retrieve]⟩
        | .ok existingKey =>
          if existingKey ≠ [] ∧ existingKey ≠ zeroSentinel then
            ⟨.ok (extractAddr existingKey), updateState s1 (pKey (extractAddr existingKey)),
              [.chainId, .getStorage .create, .getStorage .retrieve]⟩
          else
            ⟨.error creationFailedMsg, updateState s1 (pErr creationFailedMsg),
              [.chainId, .getStorage .create, .getStorage .retrieve]⟩
      else
        ⟨.ok (extractAddr response), updateState s1 (pKey (extractAddr response)),
          [.chainId, .getStorage .create]⟩
  else
    ⟨.error wrongNetworkMsg, updateState s1 (pErr wrongNetworkMsg), [.chainId]⟩

/-- The recursive confirmation poll checkTx of fundSessionKey, run over
the modelled receipt window: the first component is the receipt it
returns (none when every modelled poll answered null, in which case the
source loop is still polling), the second the number of
eth_getTransactionReceipt calls issued within the window. -/
def checkTx : List (Option String) → Option String × Nat
  | [] => (none, 0)
  | some r :: _ => (some r, 1)
  | none :: rest => ((checkTx rest).1, (checkTx rest).2 + 1)

/-- fundSessionKey from the lifecycle module: network check, parseEther
on the amount, an eth_sendTransaction value transfer from the user
wallet, then the unbounded confirmation poll. -/
def fundSessionKey (p : Provider) (s : SessionKeyState) (amount : List Char) : FundResult :=
  let s1 := updateState s pStart
  if p.chainId = TEN_CHAIN_ID then
    let valueInWei := parseEther amount
    match p.sendTransfer with
    | .error e =>
      ⟨some (.error e), updateState s1 (pErr e), [.chainId, .sendRawTransfer valueInWei]⟩
    | .ok txHash =>
      match checkTx p.receipts with
      | (some _, k) =>
        ⟨some (.ok txHash), updateState s1 pDone,
          [.chainId, .sendRawTransfer valueInWei] ++ List.replicate k .getReceipt⟩
      | (none, k) =>
        ⟨none, s1,
          [.chainId, .sendRawTransfer valueInWei] ++ List.replicate k .getReceipt⟩
  else
    ⟨some (.error wrongNetworkMsg), updateState s1 (pErr wrongNetworkMsg), [.chainId]⟩

/-- activateSessionKey from the lifecycle module: network check, one
actuation call at the activation address, then isActive true. The stored
sessionKey is never consulted. -/
def activateSessionKey (p : Provider) (s : SessionKeyState) : OpResult Unit :=
  let s1 := updateState s pStart
  if p.chainId = TEN_CHAIN_ID then
    match p.storageResp .activate with
    | .error e =>
      ⟨.error e, updateState s1 (pErr e), [.chainId, .getStorage .activate]⟩
    | .ok _ =>
      ⟨.ok (), updateState s1 (pActive true), [.chainId, .getStorage .activate]⟩
  else
    ⟨.error wrongNetworkMsg, updateState s1 (pErr wrongNetworkMsg), [.chainId]⟩

/-- deactivateSessionKey from the lifecycle module. -/
def deactivateSessionKey (p : Provider) (s : SessionKeyState) : OpResult Unit :=
  let s1 := updateState s pStart
  if p.chainId = TEN_CHAIN_ID then
    match p.storageResp .deactivate with
    | .error e =>
      ⟨.error e, updateState s1 (pErr e), [.chainId, .getStorage .deactivate]⟩
    | .ok _ =>
      ⟨.ok (), updateState s1 (pActive false), [.chainId, .getStorage .deactivate]⟩
  else
    ⟨.error wrongNetworkMsg, updateState s1 (pErr wrongNetworkMsg), [.chainId]⟩

/-- deleteSessionKey from the lifecycle module: network check, one
actuation call at the deletion address, then clearPersistedState,
listener detach and the state reset. -/
def deleteSessionKey (p : Provider) (s : SessionKeyState) : OpResult Unit :=
  let s1 := updateState s pStart
  if p.chainId = TEN_CHAIN_ID then
    match p.storageResp .delete with
    | .error e =>
      ⟨.error e, updateState s1 (pErr e), [.chainId, .getStorage .delete]⟩
    | .ok _ =>
      ⟨.ok (), updateState s1 pReset, [.chainId, .getStorage .delete]⟩
  else
    ⟨.error wrongNetworkMsg, updateState s1 (pErr wrongNetworkMsg), [.chainId]⟩

/-- cleanupSessionKey from the lifecycle module: network check, the
deactivation actuation call, then the deletion actuation call, then one
state reset; any thrown error is caught, recorded and re-raised. -/
def cleanupSessionKey (p : Provider) (s : SessionKeyState) : OpResult Unit :=
  let s1 := updateState s pStart
  if p.chainId = TEN_CHAIN_ID then
    match p.storageResp .deactivate with
    | .error e =>
      ⟨.error e, updateState s1 (pErr e), [.chainId, .getStorage .deactivate]⟩
    | .ok _ =>
      match p.storageResp .delete with
      | .error e =>
        ⟨.error e, updateState s1 (pErr e),
          [.chainId, .getStorage .deactivate, .getStorage .delete]⟩
      | .ok _ =>
        ⟨.ok (), updateState s1 pReset,
          [.chainId, .getStorage .deactivate, .getStorage .delete]⟩
  else
    ⟨.error wrongNetworkMsg, updateState s1 (pErr wrongNetworkMsg), [.chainId]⟩

/-- The gas priority tiers. -/
inductive Priority where
  | LOW | MEDIUM | HIGH
deriving DecidableEq

/-- priorityFeeIndex from calculateGasFees: LOW, MEDIUM, HIGH map to the
percentile indices 0, 1, 2. -/
def priorityFeeIndex : Priority → Nat
  | .LOW => 0
  | .HIGH => 2
  | .MEDIUM => 1

/-- calculateGasFees from src/src/core/transaction.ts (the variant
without fallback): reads the last baseFeePerGas entry, then the reward
entry of the last block at the tier index; a missing entry raises a
TypeError that nothing catches inside this function. The scaled base fee
BigInt(Math.floor(Number(baseFee) * multiplier)) is modelled by the
abstract function scale, because the BASE_FEE_MULTIPLIERS constants live
in the missing src/src/utils/constants.ts and the multiplication goes
through JavaScript floating point. Returns (maxFeePerGas,
maxPriorityFeePerGas). -/
def calculateGasFees (scale : Priority → Nat → Nat) (p : Provider)
    (priority : Priority) : Except String (Nat × Nat) :=
  match p.feeHist with
  | .error e => .error e
  | .ok feeHistory =>
    match feeHistory.baseFeePerGas.getLast? with
    | none => .error typeErrorMsg
    | some baseFee =>
      match feeHistory.reward.getLast? with
      | none => .error typeErrorMsg
      | some rewardRow =>
        match rewardRow.get? (priorityFeeIndex priority) with
        | none => .error typeErrorMsg
        | some maxPriorityFeePerGas =>
          .ok (scale priority baseFee + maxPriorityFeePerGas, maxPriorityFeePerGas)

/-- calculateGasFees of the later variant (carried in
src/src/utils/encoding.ts): reads baseFeePerGas[0] inside a try block
with a fixed 0.1 gwei priority fee, and on any failure falls back to a
fixed 1 gwei base fee scaled by the same multiplier. The catch-all means
this computation never throws. -/
def calculateGasFeesFallback (scale : Priority → Nat → Nat) (p : Provider)
    (priority : Priority) : Nat × Nat :=
  match p.feeHist with
  | .ok feeHistory =>
    match feeHistory.baseFeePerGas.get? 0 with
    | some baseFee => (scale priority baseFee + 100000000, 100000000)
    | none => (scale priority 1000000000 + 100000000, 100000000)
  | .error _ => (scale priority 1000000000 + 100000000, 100000000)

/-- Step 2 of sendTransaction: a caller-supplied nonce wins (checked
against undefined, so a zero nonce is honoured), otherwise
eth_getTransactionCount is queried. -/
def resolveNonce (p : Provider) (tx : TransactionParams) :
    Except String Nat × List Request :=
  match tx.nonce with
  | some n => (.ok n, [])
  | none =>
    match p.txCount with
    | .ok n => (.ok n, [.getTransactionCount])
    | .error e => (.error e, [.getTransactionCount])

/-- Step 3 of the first sendTransaction variant: caller-supplied fee
fields win when both are present (a truthiness test), otherwise the
dynamic MEDIUM calculation. -/
def resolveFees (scale : Priority → Nat → Nat) (p : Provider)
    (tx : TransactionParams) : Except String (Nat × Nat) × List Request :=
  match tx.maxFeePerGas, tx.maxPriorityFeePerGas with
  | some f, some pf => (.ok (f, pf), [])
  | _, _ => (calculateGasFees scale p .MEDIUM, [.feeHistory])

/-- Step 3 of the later sendTransaction variant, using the fallback fee
calculation (which cannot fail). -/
def resolveFeesFallback (scale : Priority → Nat → Nat) (p : Provider)
    (tx : TransactionParams) : Except String (Nat × Nat) × List Request :=
  match tx.maxFeePerGas, tx.maxPriorityFeePerGas with
  | some f, some pf => (.ok (f, pf), [])
  | _, _ => (.ok (calculateGasFeesFallback scale p .MEDIUM), [.feeHistory])

/-- Step 4 of sendTransaction: if (txParams.gasLimit) is a truthiness
test, so an absent and a zero gas limit both fall through to
eth_estimateGas. -/
def resolveGasLimit (p : Provider) (tx : TransactionParams) :
    Except String Nat × List Request :=
  if tx.gasLimit.getD 0 ≠ 0 then (.ok (tx.gasLimit.getD 0), [])
  else
    match p.gasEstimate with
    | .ok g => (.ok g, [.estimateGas])
    | .error e => (.error e, [.estimateGas])

/-- sendTransaction from src/src/core/transaction.ts (the variant whose
fee calculation has no fallback): network check, session-key guard
(reading only getSessionKey, never getIsActive), a fresh chain-id query,
nonce, fees and gas limit resolution, transaction array build, RLP
encode, type byte, and submission through the session-execution
actuation call. -/
def sendTransaction (scale : Priority → Nat → Nat) (p : Provider)
    (s : SessionKeyState) (tx : TransactionParams) : OpResult String :=
  let s1 := updateState s pStart
  if p.chainId = TEN_CHAIN_ID then
    match s.sessionKey with
    | none =>
      ⟨.error noSessionKeyMsg, updateState s1 (pErr noSessionKeyMsg), [.chainId]⟩
    | some _ =>
      match resolveNonce p tx with
      | (.error e, trN) =>
        ⟨.error e, updateState s1 (pErr e), [.chainId, .chainId] ++ trN⟩
      | (.ok nonce, trN) =>
        match resolveFees scale p tx with
        | (.error e, trF) =>
          ⟨.error e, updateState s1 (pErr e), [.chainId, .chainId] ++ trN ++ trF⟩
        | (.ok (maxFeePerGas, maxPriorityFeePerGas), trF) =>
          match resolveGasLimit p tx with
          | (.error e, trG) =>
            ⟨.error e, updateState s1 (pErr e),
              [.chainId, .chainId] ++ trN ++ trF ++ trG⟩
          | (.ok gasLimit, trG) =>
            let payload :=
              txBytes (txItems p.chainId nonce maxPriorityFeePerGas maxFeePerGas gasLimit tx)
            match p.executeResp with
            | .error e =>
              ⟨.error e, updateState s1 (pErr e),
                [.chainId, .chainId] ++ trN ++ trF ++ trG ++ [.execute payload]⟩
            | .ok txHash =>
              ⟨.ok txHash, updateState s1 pDone,
                [.chainId, .chainId] ++ trN ++ trF ++ trG ++ [.execute payload]⟩
  else
    ⟨.error wrongNetworkMsg, updateState s1 (pErr wrongNetworkMsg), [.chainId]⟩

/-- The later sendTransaction variant (carried in
src/src/utils/encoding.ts): same pipeline, with the never-failing
fallback fee calculation and the nonce zero special case in the
transaction array. -/
def sendTransactionVariant (scale : Priority → Nat → Nat) (p : Provider)
    (s : SessionKeyState) (tx : TransactionParams) : OpResult String :=
  let s1 := updateState s pStart
  if p.chainId = TEN_CHAIN_ID then
    match s.sessionKey with
    | none =>
      ⟨.error noSessionKeyMsg, updateState s1 (pErr noSessionKeyMsg), [.chainId]⟩
    | some _ =>
      match resolveNonce p tx with
      | (.error e, trN) =>
        ⟨.error e, updateState s1 (pErr e), [.chainId, .chainId] ++ trN⟩
      | (.ok nonce, trN) =>
        match resolveFeesFallback scale p tx with
        | (.error e, trF) =>
          ⟨.error e, updateState s1 (pErr e), [.chainId, .chainId] ++ trN ++ trF⟩
        | (.ok (maxFeePerGas, maxPriorityFeePerGas), trF) =>
          match resolveGasLimit p tx with
          | (.error e, trG) =>
            ⟨.error e, updateState s1 (pErr e),
              [.chainId, .chainId] ++ trN ++ trF ++ trG⟩
          | (.ok gasLimit, trG) =>
            let payload :=
              txBytes (txItemsVariant p.chainId nonce maxPriorityFeePerGas maxFeePerGas gasLimit tx)
            match p.executeResp with
            | .error e =>
              ⟨.error e, updateState s1 (pErr e),
                [.chainId, .chainId] ++ trN ++ trF ++ trG ++ [.execute payload]⟩
            | .ok txHash =>
              ⟨.ok txHash, updateState s1 pDone,
                [.chainId, .chainId] ++ trN ++ trF ++ trG ++ [.execute payload]⟩
  else
    ⟨.error wrongNetworkMsg, updateState s1 (pErr wrongNetworkMsg), [.chainId]⟩

/-! Helper lemmas about the state-store merge. -/

theorem foldl_updateState_frame {α : Type} (g : SessionKeyState → α)
    (pg : StatePatch → Option α)
    (hc : ∀ s u, g (updateState s u) = (pg u).getD (g s)) :
    ∀ (ps : List StatePatch) (s : SessionKeyState), (∀ q ∈ ps, pg q = none) →
      g (List.foldl updateState s ps) = g s := by
  intro ps
  induction ps with
  | nil => intro s _; rfl
  | cons q rest ih =>
    intro s hall
    simp only [List.foldl_cons]
    rw [ih (updateState s q) (fun q' hq' => hall q' (List.mem_cons_of_mem _ hq')), hc,
      hall q (List.mem_cons_self _ _)]
    rfl

theorem foldl_updateState_last {α : Type} (g : SessionKeyState → α)
    (pg : StatePatch → Option α)
    (hc : ∀ s u, g (updateState s u) = (pg u).getD (g s)) :
    ∀ (ps : List StatePatch) (s : SessionKeyState) (u : StatePatch) (v : α),
      u ∈ ps → pg u = some v → (∀ q ∈ ps, q = u ∨ pg q = none) →
      g (List.foldl updateState s ps) = v := by
  intro ps
  induction ps with
  | nil => intro s u v hmem; exact absurd hmem (List.not_mem_nil u)
  | cons q rest ih =>
    intro s u v hmem hpv hall
    simp only [List.foldl_cons]
    by_cases hmem' : u ∈ rest
    · exact ih (updateState s q) u v hmem' hpv
        (fun q' h => hall q' (List.mem_cons_of_mem _ h))
    · have hqu : q = u := by
        rcases List.mem_cons.mp hmem with h | h
        · exact h.symm
        · exact absurd h hmem'
      subst hqu
      have hrest : ∀ q' ∈ rest, pg q' = none := by
        intro q' h
        rcases hall q' (List.mem_cons_of_mem _ h) with rfl | h2
        · exact absurd h hmem'
        · exact h2
      rw [foldl_updateState_frame g pg hc rest _ hrest, hc, hpv]
      rfl

/-- Claim C9: in every updateState merge, a state field not named in the
partial keeps its previous value; consequently a sequence of updates
touching pairwise-disjoint fields loses none of them — the final state
carries the latest value written for each field. -/
theorem claim_C9_updateState_frame :
    ∀ (s : SessionKeyState) (u : StatePatch) (ps : List StatePatch)
      (v1 : Option (List Char)) (v2 : Bool) (v3 : Option BalanceInfo)
      (v4 : Bool) (v5 : Option String),
    ((u.sessionKey = none → (updateState s u).sessionKey = s.sessionKey)
      ∧ (u.isActive = none → (updateState s u).isActive = s.isActive)
      ∧ (u.balance = none → (updateState s u).balance = s.balance)
      ∧ (u.isLoading = none → (updateState s u).isLoading = s.isLoading)
      ∧ (u.error = none → (updateState s u).error = s.error))
    ∧ (u ∈ ps → u.sessionKey = some v1 → (∀ q ∈ ps, q = u ∨ q.sessionKey = none) →
        (List.foldl updateState s ps).sessionKey = v1)
    ∧ (u ∈ ps → u.isActive = some v2 → (∀ q ∈ ps, q = u ∨ q.isActive = none) →
        (List.foldl updateState s ps).isActive = v2)
    ∧ (u ∈ ps → u.balance = some v3 → (∀ q ∈ ps, q = u ∨ q.balance = none) →
        (List.foldl updateState s ps).balance = v3)
    ∧ (u ∈ ps → u.isLoading = some v4 → (∀ q ∈ ps, q = u ∨ q.isLoading = none) →
        (List.foldl updateState s ps).isLoading = v4)
    ∧ (u ∈ ps → u.error = some v5 → (∀ q ∈ ps, q = u ∨ q.error = none) →
        (List.foldl updateState s ps).error = v5) := by
  intro s u ps v1 v2 v3 v4 v5
  refine ⟨⟨?_, ?_, ?_, ?_, ?_⟩, ?_, ?_, ?_, ?_, ?_⟩
  · intro h; simp [updateState, h]
  · intro h; simp [updateState, h]
  · intro h; simp [updateState, h]
  · intro h; simp [updateState, h]
  · intro h; simp [updateState, h]
  · intro hm hv hall
    exact foldl_updateState_last (fun st => st.sessionKey) (fun q => q.sessionKey)
      (fun _ _ => rfl) ps s u v1 hm hv hall
  · intro hm hv hall
    exact foldl_updateState_last (fun st => st.isActive) (fun q => q.isActive)
      (fun _ _ => rfl) ps s u v2 hm hv hall
  · intro hm hv hall
    exact foldl_updateState_last (fun st => st.balance) (fun q => q.balance)
      (fun _ _ => rfl) ps s u v3 hm hv hall
  · intro hm hv hall
    exact foldl_updateState_last (fun st => st.isLoading) (fun q => q.isLoading)
      (fun _ _ => rfl) ps s u v4 hm hv hall
  · intro hm hv hall
    exact foldl_updateState_last (fun st => st.error) (fun q => q.error)
      (fun _ _ => rfl) ps s u v5 hm hv hall

/-- Witness for claim C9: two sequential updates touching the disjoint
fields isActive and balance both survive in the final state. -/
theorem claim_C9_witness :
    (⟨none, some true, none, none, none⟩ : StatePatch) ∈
        [(⟨none, some true, none, none, none⟩ : StatePatch),
          ⟨none, none, some (some ⟨1, 2⟩), none, none⟩]
    ∧ (List.foldl updateState initialState
        [(⟨none, some true, none, none, none⟩ : StatePatch),
          ⟨none, none, some (some ⟨1, 2⟩), none, none⟩]).isActive = true :=
  ⟨by decide,
    (claim_C9_updateState_frame initialState ⟨none, some true, none, none, none⟩
        [⟨none, some true, none, none, none⟩, ⟨none, none, some (some ⟨1, 2⟩), none, none⟩]
        none true none false none).2.2.1
      (by decide) (by decide) (by decide)⟩

/-- Claim C10: the subscriber set is keyed by callback identity, so a
double subscription of the same callback leaves exactly one
registration (notified once per update), the unsubscribe capability
removes the callback entirely, and unsubscribing twice is harmless. -/
theorem claim_C10_subscriber_set :
    ∀ (α : Type) [DecidableEq α] (subs : List α) (c : α), subs.Nodup →
    subscribeToState c (subscribeToState c subs) = subscribeToState c subs
    ∧ (subscribeToState c (subscribeToState c subs)).count c = 1
    ∧ unsubscribeDelete c (subscribeToState c (subscribeToState c subs)) =
        unsubscribeDelete c subs
    ∧ c ∉ unsubscribeDelete c (subscribeToState c (subscribeToState c subs))
    ∧ unsubscribeDelete c (unsubscribeDelete c subs) = unsubscribeDelete c subs
    ∧ (subscribeToState c subs).Nodup := by
  intro α _ subs c hnd
  by_cases hmem : c ∈ subs
  · have h1 : subscribeToState c subs = subs := by simp [subscribeToState, hmem]
    refine ⟨by rw [h1, h1], ?_, by rw [h1, h1], ?_, ?_, by rw [h1]; exact hnd⟩
    · rw [h1, h1]
      exact List.count_eq_one_of_mem hnd hmem
    · rw [h1, h1]
      simp [unsubscribeDelete, List.mem_filter]
    · simp [unsubscribeDelete, List.filter_filter]
  · have h1 : subscribeToState c subs = subs ++ [c] := by simp [subscribeToState, hmem]
    have h2 : subscribeToState c (subs ++ [c]) = subs ++ [c] := by
      simp [subscribeToState]
    have hdel : unsubscribeDelete c (subs ++ [c]) = unsubscribeDelete c subs := by
      simp [unsubscribeDelete, List.filter_append]
    refine ⟨by rw [h1, h2], ?_, by rw [h1, h2, hdel], ?_, ?_, ?_⟩
    · rw [h1, h2]
      have : subs.count c = 0 := List.count_eq_zero_of_not_mem hmem
      simp [List.count_append, this]
    · rw [h1, h2, hdel]
      simp [unsubscribeDelete, List.mem_filter]
    · simp [unsubscribeDelete, List.filter_filter]
    · rw [h1]
      simp [List.nodup_append, hmem, hnd]

/-- Witness for claim C10 at a concrete subscriber list. -/
theorem claim_C10_witness :
    ([2, 5] : List Nat).Nodup
    ∧ subscribeToState 7 (subscribeToState 7 [2, 5]) = subscribeToState 7 [2, 5] :=
  ⟨by decide, (claim_C10_subscriber_set Nat [2, 5] 7 (by decide)).1⟩

/-- Claim C5: on a chain-id mismatch every lifecycle operation and both
sendTransaction variants fail with the WrongNetwork error after issuing
only the eth_chainId query — in particular no actuation call (no
storage-read at a well-known address and no session-execution
submission) is issued, as the lone chain-id request is not an actuation
call. -/
theorem claim_C5_wrong_network :
    ∀ (scale : Priority → Nat → Nat) (p : Provider) (s : SessionKeyState)
      (amount : List Char) (tx : TransactionParams),
    p.chainId ≠ TEN_CHAIN_ID →
    ((createSessionKey p s).result = .error wrongNetworkMsg
      ∧ (createSessionKey p s).trace = [.chainId])
    ∧ ((fundSessionKey p s amount).result = some (.error wrongNetworkMsg)
      ∧ (fundSessionKey p s amount).trace = [.chainId])
    ∧ ((activateSessionKey p s).result = .error wrongNetworkMsg
      ∧ (activateSessionKey p s).trace = [.chainId])
    ∧ ((deactivateSessionKey p s).result = .error wrongNetworkMsg
      ∧ (deactivateSessionKey p s).trace = [.chainId])
    ∧ ((deleteSessionKey p s).result = .error wrongNetworkMsg
      ∧ (deleteSessionKey p s).trace = [.chainId])
    ∧ ((cleanupSessionKey p s).result = .error wrongNetworkMsg
      ∧ (cleanupSessionKey p s).trace = [.chainId])
    ∧ ((sendTransaction scale p s tx).result = .error wrongNetworkMsg
      ∧ (sendTransaction scale p s tx).trace = [.chainId])
    ∧ ((sendTransactionVariant scale p s tx).result = .error wrongNetworkMsg
      ∧ (sendTransactionVariant scale p s tx).trace = [.chainId])
    ∧ List.filter isActuation [Request.chainId] = [] := by
  intro scale p s amount tx h
  simp only [createSessionKey, fundSessionKey, activateSessionKey, deactivateSessionKey,
    deleteSessionKey, cleanupSessionKey, sendTransaction, sendTransactionVariant, if_neg h]
  simp [isActuation]

/-- Witness for claim C5: a provider reporting chain id 1 (target is
443). -/
theorem claim_C5_witness :
    (1 : Nat) ≠ TEN_CHAIN_ID
    ∧ (createSessionKey
        ⟨1, fun _ => .ok [], .ok 0, .error "e", .ok 0, .ok "h", [], .ok "h"⟩
        initialState).result = .error wrongNetworkMsg :=
  ⟨by decide,
    (claim_C5_wrong_network (fun _ b => b)
        ⟨1, fun _ => .ok [], .ok 0, .error "e", .ok 0, .ok "h", [], .ok "h"⟩
        initialState ['1'] ⟨['0', 'x'], none, none, none, none, none, none⟩
        (by decide)).1.1⟩

/-- Claim C6: when the deactivate actuation call inside cleanupSessionKey
fails, the delete actuation call is never issued, the error propagates
as the result, it is recorded in the error field of the state, and the
sessionKey field is unchanged from its value at entry. -/
theorem claim_C6_cleanup_deactivate_failure :
    ∀ (p : Provider) (s : SessionKeyState) (e : String),
    p.chainId = TEN_CHAIN_ID → p.storageResp .deactivate = .error e →
    (cleanupSessionKey p s).result = .error e
    ∧ (cleanupSessionKey p s).trace = [.chainId, .getStorage .deactivate]
    ∧ Request.getStorage .delete ∉ (cleanupSessionKey p s).trace
    ∧ (cleanupSessionKey p s).state.error = some e
    ∧ (cleanupSessionKey p s).state.sessionKey = s.sessionKey := by
  intro p s e hc hd
  simp only [cleanupSessionKey, if_pos hc, hd]
  refine ⟨?_, ?_, ?_, ?_, ?_⟩ <;> trivial

/-- Witness for claim C6: a provider on the right chain whose deactivate
call rejects. -/
theorem claim_C6_witness :
    (Provider.chainId
        ⟨443, fun a => if a = .deactivate then .error "deactivate failed" else .ok ['1'],
          .ok 0, .error "e", .ok 0, .ok "h", [], .ok "h"⟩ = TEN_CHAIN_ID)
    ∧ (cleanupSessionKey
        ⟨443, fun a => if a = .deactivate then .error "deactivate failed" else .ok ['1'],
          .ok 0, .error "e", .ok 0, .ok "h", [], .ok "h"⟩
        initialState).result = .error "deactivate failed" :=
  ⟨by decide,
    (claim_C6_cleanup_deactivate_failure
        ⟨443, fun a => if a = .deactivate then .error "deactivate failed" else .ok ['1'],
          .ok 0, .error "e", .ok 0, .ok "h", [], .ok "h"⟩
        initialState "deactivate failed" (by decide) rfl).1⟩

/-! Helper lemmas for the state invariant (claim C3). -/

theorem stateInv_updateState (s : SessionKeyState) (u : StatePatch) (h : StateInv s)
    (hcase : u.isActive = some false
      ∨ (u.isActive = none ∧ (u.sessionKey = none ∨ ∃ a, u.sessionKey = some (some a)))) :
    StateInv (updateState s u) := by
  intro hact
  rcases hcase with ha | ⟨ha, hk⟩
  · simp [updateState, ha] at hact
  · rcases hk with hk | ⟨a, hk⟩
    · simp only [updateState, ha, hk, Option.getD_none] at hact ⊢
      exact h hact
    · simp [updateState, hk]

theorem stateInv_createSessionKey (p : Provider) (s : SessionKeyState) (h : StateInv s) :
    StateInv (createSessionKey p s).state := by
  have h1 : StateInv (updateState s pStart) :=
    stateInv_updateState s pStart h (Or.inr ⟨rfl, Or.inl rfl⟩)
  simp only [createSessionKey]
  repeat' split
  all_goals first
    | exact stateInv_updateState _ _ h1 (Or.inr ⟨rfl, Or.inl rfl⟩)
    | exact stateInv_updateState _ _ h1 (Or.inr ⟨rfl, Or.inr ⟨_, rfl⟩⟩)
    | exact stateInv_updateState _ _ h1 (Or.inl rfl)
    | exact h1

theorem stateInv_fundSessionKey (p : Provider) (s : SessionKeyState) (amount : List Char)
    (h : StateInv s) : StateInv (fundSessionKey p s amount).state := by
  have h1 : StateInv (updateState s pStart) :=
    stateInv_updateState s pStart h (Or.inr ⟨rfl, Or.inl rfl⟩)
  simp only [fundSessionKey]
  repeat' split
  all_goals first
    | exact stateInv_updateState _ _ h1 (Or.inr ⟨rfl, Or.inl rfl⟩)
    | exact stateInv_updateState _ _ h1 (Or.inr ⟨rfl, Or.inr ⟨_, rfl⟩⟩)
    | exact stateInv_updateState _ _ h1 (Or.inl rfl)
    | exact h1

theorem stateInv_deactivateSessionKey (p : Provider) (s : SessionKeyState) (h : StateInv s) :
    StateInv (deactivateSessionKey p s).state := by
  have h1 : StateInv (updateState s pStart) :=
    stateInv_updateState s pStart h (Or.inr ⟨rfl, Or.inl rfl⟩)
  simp only [deactivateSessionKey]
  repeat' split
  all_goals first
    | exact stateInv_updateState _ _ h1 (Or.inr ⟨rfl, Or.inl rfl⟩)
    | exact stateInv_updateState _ _ h1 (Or.inl rfl)
    | exact h1

theorem stateInv_deleteSessionKey (p : Provider) (s : SessionKeyState) (h : StateInv s) :
    StateInv (deleteSessionKey p s).state := by
  have h1 : StateInv (updateState s pStart) :=
    stateInv_updateState s pStart h (Or.inr ⟨rfl, Or.inl rfl⟩)
  simp only [deleteSessionKey]
  repeat' split
  all_goals first
    | exact stateInv_updateState _ _ h1 (Or.inr ⟨rfl, Or.inl rfl⟩)
    | exact stateInv_updateState _ _ h1 (Or.inl rfl)
    | exact h1

theorem stateInv_cleanupSessionKey (p : Provider) (s : SessionKeyState) (h : StateInv s) :
    StateInv (cleanupSessionKey p s).state := by
  have h1 : StateInv (updateState s pStart) :=
    stateInv_updateState s pStart h (Or.inr ⟨rfl, Or.inl rfl⟩)
  simp only [cleanupSessionKey]
  repeat' split
  all_goals first
    | exact stateInv_updateState _ _ h1 (Or.inr ⟨rfl, Or.inl rfl⟩)
    | exact stateInv_updateState _ _ h1 (Or.inl rfl)
    | exact h1

theorem stateInv_sendTransaction (scale : Priority → Nat → Nat) (p : Provider)
    (s : SessionKeyState) (tx : TransactionParams) (h : StateInv s) :
    StateInv (sendTransaction scale p s tx).state := by
  have h1 : StateInv (updateState s pStart) :=
    stateInv_updateState s pStart h (Or.inr ⟨rfl, Or.inl rfl⟩)
  simp only [sendTransaction]
  repeat' split
  all_goals first
    | exact stateInv_updateState _ _ h1 (Or.inr ⟨rfl, Or.inl rfl⟩)
    | exact h1

theorem stateInv_sendTransactionVariant (scale : Priority → Nat → Nat) (p : Provider)
    (s : SessionKeyState) (tx : TransactionParams) (h : StateInv s) :
    StateInv (sendTransactionVariant scale p s tx).state := by
  have h1 : StateInv (updateState s pStart) :=
    stateInv_updateState s pStart h (Or.inr ⟨rfl, Or.inl rfl⟩)
  simp only [sendTransactionVariant]
  repeat' split
  all_goals first
    | exact stateInv_updateState _ _ h1 (Or.inr ⟨rfl, Or.inl rfl⟩)
    | exact h1

theorem stateInv_activate_with_key (p : Provider) (s : SessionKeyState)
    (h : StateInv s) (hk : s.sessionKey ≠ none) :
    StateInv (activateSessionKey p s).state := by
  have h1 : StateInv (updateState s pStart) :=
    stateInv_updateState s pStart h (Or.inr ⟨rfl, Or.inl rfl⟩)
  simp only [activateSessionKey]
  repeat' split
  all_goals first
    | exact stateInv_updateState _ _ h1 (Or.inr ⟨rfl, Or.inl rfl⟩)
    | intro _; simpa [updateState, pStart, pActive] using hk

/-- Claim C3 counterexample: activateSessionKey called in the initial
state (sessionKey null) against a willing provider on the right chain
produces a state with isActive true and sessionKey null — the operation
never consults the stored session key. -/
theorem claim_C3_counterexample :
    (activateSessionKey
        ⟨443, fun _ => .ok ['0', 'x', '1'], .ok 0, .error "e", .ok 0, .ok "h", [], .ok "h"⟩
        initialState).state.isActive = true
    ∧ (activateSessionKey
        ⟨443, fun _ => .ok ['0', 'x', '1'], .ok 0, .error "e", .ok 0, .ok "h", [], .ok "h"⟩
        initialState).state.sessionKey = none :=
  ⟨rfl, rfl⟩

/-- Claim C3 as amended: every lifecycle and transaction operation other
than activateSessionKey preserves the invariant (isActive true implies
sessionKey non-null); activateSessionKey preserves it exactly when the
stored sessionKey is non-null at entry (it sets isActive true without
any guard); and the persisted-state load establishes the invariant
exactly when the loaded blob itself satisfies it. -/
theorem claim_C3_amended :
    ∀ (scale : Priority → Nat → Nat) (p : Provider) (s : SessionKeyState)
      (amount : List Char) (tx : TransactionParams) (blob : PersistedBlob),
    StateInv s →
    StateInv (createSessionKey p s).state
    ∧ StateInv (fundSessionKey p s amount).state
    ∧ StateInv (deactivateSessionKey p s).state
    ∧ StateInv (deleteSessionKey p s).state
    ∧ StateInv (cleanupSessionKey p s).state
    ∧ StateInv (sendTransaction scale p s tx).state
    ∧ StateInv (sendTransactionVariant scale p s tx).state
    ∧ (s.sessionKey ≠ none → StateInv (activateSessionKey p s).state)
    ∧ ((blob.isActive = true → blob.sessionKey ≠ none) → StateInv (loadPersisted blob s)) := by
  intro scale p s amount tx blob h
  refine ⟨stateInv_createSessionKey p s h, stateInv_fundSessionKey p s amount h,
    stateInv_deactivateSessionKey p s h, stateInv_deleteSessionKey p s h,
    stateInv_cleanupSessionKey p s h, stateInv_sendTransaction scale p s tx h,
    stateInv_sendTransactionVariant scale p s tx h,
    fun hk => stateInv_activate_with_key p s h hk, fun hblob hact => ?_⟩
  simpa [loadPersisted] using hblob (by simpa [loadPersisted] using hact)

/-- Witness for claim C3 as amended, at a concrete provider and the
initial state. -/
theorem claim_C3_witness :
    StateInv initialState
    ∧ StateInv (createSessionKey
        ⟨443, fun _ => .ok ['0', 'x', '1'], .ok 0, .error "e", .ok 0, .ok "h", [], .ok "h"⟩
        initialState).state :=
  ⟨fun h => by simp [initialState] at h,
    (claim_C3_amended (fun _ b => b)
        ⟨443, fun _ => .ok ['0', 'x', '1'], .ok 0, .error "e", .ok 0, .ok "h", [], .ok "h"⟩
        initialState ['1'] ⟨['0', 'x'], none, none, none, none, none, none⟩
        ⟨none, false⟩ (fun h => by simp [initialState] at h)).1⟩

/-! Helper lemmas for the confirmation poll (claim C7). -/

theorem checkTx_all_none :
    ∀ rs : List (Option String), (∀ r ∈ rs, r = none) → checkTx rs = (none, rs.length) := by
  intro rs
  induction rs with
  | nil => intro _; rfl
  | cons r rest ih =>
    intro hall
    have hr : r = none := hall r (List.mem_cons_self _ _)
    subst hr
    simp [checkTx, ih (fun x hx => hall x (List.mem_cons_of_mem _ hx))]

theorem checkTx_found :
    ∀ (k : Nat) (r : String) (rs : List (Option String)),
      checkTx (List.replicate k none ++ some r :: rs) = (some r, k + 1) := by
  intro k
  induction k with
  | zero => intro r rs; rfl
  | succ k ih =>
    intro r rs
    rw [List.replicate_succ, List.cons_append]
    simp [checkTx, ih r rs]

/-- Claim C7 counterexample: the confirmation poll of fundSessionKey
carries no retry or time bound at all — against a provider that never
returns a receipt, after any number n of modelled polling rounds the
call has still not returned, so in particular it never fails with any
ConfirmationTimeout error (no such error exists in the code). -/
theorem claim_C7_counterexample :
    ¬ ∃ n : Nat,
      (fundSessionKey
        ⟨443, fun _ => .ok [], .ok 0, .error "e", .ok 0, .ok "0xfund",
          List.replicate n none, .ok "h"⟩
        initialState ['1']).result ≠ none := by
  rintro ⟨n, hn⟩
  apply hn
  have h := checkTx_all_none (List.replicate n none)
    (fun r hr => List.eq_of_mem_replicate hr)
  simp [fundSessionKey, TEN_CHAIN_ID, h]

/-- Claim C7 as amended: the funding-confirmation poll is unbounded. If
the provider never returns a receipt the loop is still polling after
every modelled window (one getReceipt request per round, never an
error); it terminates exactly when a receipt appears, returning the
funding transaction hash after k+1 receipt queries when the receipt
appears in round k. -/
theorem claim_C7_amended :
    ∀ (p : Provider) (s : SessionKeyState) (amount : List Char) (h : String),
    p.chainId = TEN_CHAIN_ID → p.sendTransfer = .ok h →
    ((∀ r ∈ p.receipts, r = none) →
      (fundSessionKey p s amount).result = none
      ∧ (fundSessionKey p s amount).trace =
          [.chainId, .sendRawTransfer (parseEther amount)] ++
            List.replicate p.receipts.length .getReceipt)
    ∧ (∀ (k : Nat) (r : String) (rs : List (Option String)),
        p.receipts = List.replicate k none ++ some r :: rs →
        (fundSessionKey p s amount).result = some (.ok h)
        ∧ (fundSessionKey p s amount).trace =
            [.chainId, .sendRawTransfer (parseEther amount)] ++
              List.replicate (k + 1) .getReceipt) := by
  intro p s amount h hc hs
  constructor
  · intro hall
    have hck := checkTx_all_none p.receipts hall
    constructor <;> simp [fundSessionKey, if_pos hc, hs, hck]
  · intro k r rs hrec
    have hck : checkTx p.receipts = (some r, k + 1) := by
      rw [hrec]; exact checkTx_found k r rs
    constructor <;> simp [fundSessionKey, if_pos hc, hs, hck]

/-- Witness for claim C7 as amended: a receipt in the second polling
round confirms the funding call. -/
theorem claim_C7_witness :
    (Provider.chainId
        ⟨443, fun _ => .ok [], .ok 0, .error "e", .ok 0, .ok "0xfund",
          [none, some "r"], .ok "h"⟩ = TEN_CHAIN_ID)
    ∧ (fundSessionKey
        ⟨443, fun _ => .ok [], .ok 0, .error "e", .ok 0, .ok "0xfund",
          [none, some "r"], .ok "h"⟩
        initialState ['1']).result = some (.ok "0xfund") :=
  ⟨rfl,
    ((claim_C7_amended
        ⟨443, fun _ => .ok [], .ok 0, .error "e", .ok 0, .ok "0xfund",
          [none, some "r"], .ok "h"⟩
        initialState ['1'] "0xfund" rfl rfl).2 1 "r" [] rfl).1⟩

/-! Helper lemma for claim C4: the transaction builder reads only the
sessionKey field of the state store (its result and trace are the same
for any two states with the same stored key; in particular isActive has
no effect on them). -/

theorem sendTransaction_key_only (scale : Priority → Nat → Nat) (p : Provider)
    (tx : TransactionParams) :
    ∀ s₁ s₂ : SessionKeyState, s₁.sessionKey = s₂.sessionKey →
    (sendTransaction scale p s₁ tx).result = (sendTransaction scale p s₂ tx).result
    ∧ (sendTransaction scale p s₁ tx).trace = (sendTransaction scale p s₂ tx).trace := by
  intro s₁ s₂ hk
  unfold sendTransaction
  by_cases hc : p.chainId = TEN_CHAIN_ID
  · simp only [if_pos hc, hk]
    cases hsk : s₂.sessionKey with
    | none => exact ⟨by trivial, by trivial⟩
    | some a =>
      rcases hn : resolveNonce p tx with ⟨rn, trn⟩
      cases rn with
      | error e => exact ⟨by trivial, by trivial⟩
      | ok nonce =>
        rcases hf : resolveFees scale p tx with ⟨rf, trf⟩
        cases rf with
        | error e => exact ⟨by trivial, by trivial⟩
        | ok fees =>
          rcases fees with ⟨mf, mpf⟩
          rcases hg : resolveGasLimit p tx with ⟨rg, trg⟩
          cases rg with
          | error e => exact ⟨by trivial, by trivial⟩
          | ok g =>
            cases he : p.executeResp with
            | error e => exact ⟨by trivial, by trivial⟩
            | ok r => exact ⟨by trivial, by trivial⟩
  · simp only [if_neg hc]
    exact ⟨by trivial, by trivial⟩

theorem sendTransactionVariant_key_only (scale : Priority → Nat → Nat) (p : Provider)
    (tx : TransactionParams) :
    ∀ s₁ s₂ : SessionKeyState, s₁.sessionKey = s₂.sessionKey →
    (sendTransactionVariant scale p s₁ tx).result
        = (sendTransactionVariant scale p s₂ tx).result
    ∧ (sendTransactionVariant scale p s₁ tx).trace
        = (sendTransactionVariant scale p s₂ tx).trace := by
  intro s₁ s₂ hk
  unfold sendTransactionVariant
  by_cases hc : p.chainId = TEN_CHAIN_ID
  · simp only [if_pos hc, hk]
    cases hsk : s₂.sessionKey with
    | none => exact ⟨by trivial, by trivial⟩
    | some a =>
      rcases hn : resolveNonce p tx with ⟨rn, trn⟩
      cases rn with
      | error e => exact ⟨by trivial, by trivial⟩
      | ok nonce =>
        rcases hf : resolveFeesFallback scale p tx with ⟨rf, trf⟩
        cases rf with
        | error e => exact ⟨by trivial, by trivial⟩
        | ok fees =>
          rcases fees with ⟨mf, mpf⟩
          rcases hg : resolveGasLimit p tx with ⟨rg, trg⟩
          cases rg with
          | error e => exact ⟨by trivial, by trivial⟩
          | ok g =>
            cases he : p.executeResp with
            | error e => exact ⟨by trivial, by trivial⟩
            | ok r => exact ⟨by trivial, by trivial⟩
  · simp only [if_neg hc]
    exact ⟨by trivial, by trivial⟩

/-- Claim C4 counterexample: with a stored session key present but the
stored isActive flag false, sendTransaction does not fail with the
NoSessionKey error — it proceeds all the way to submission (an actuation
call appears in the trace and the provider hash is returned), because
the guard reads only getSessionKey and never getIsActive. -/
theorem claim_C4_counterexample :
    (SessionKeyState.isActive
        ⟨some ['0', 'x', 'a', 'b'], false, none, false, none⟩ = false)
    ∧ (sendTransaction (fun _ b => b)
        ⟨443, fun _ => .ok ['0', 'x', '1'], .ok 7, .error "e", .ok 9, .ok "h", [], .ok "0xdeadbeef"⟩
        ⟨some ['0', 'x', 'a', 'b'], false, none, false, none⟩
        ⟨['0', 'x', 'a', 'b'], none, none, some 1, some 100, some 2, some 1⟩).result
      = .ok "0xdeadbeef"
    ∧ (sendTransaction (fun _ b => b)
        ⟨443, fun _ => .ok ['0', 'x', '1'], .ok 7, .error "e", .ok 9, .ok "h", [], .ok "0xdeadbeef"⟩
        ⟨some ['0', 'x', 'a', 'b'], false, none, false, none⟩
        ⟨['0', 'x', 'a', 'b'], none, none, some 1, some 100, some 2, some 1⟩).trace.filter
          isActuation ≠ [] :=
  ⟨rfl, rfl, by decide⟩

/-- Claim C4 as amended: sendTransaction (both variants) fails with the
NoSessionKey error exactly on an absent stored session key — the guard
never consults the stored isActive flag (result and trace are unchanged
under any value of isActive), and on the null-key failure the trace
holds only the initial chain-id check, so nothing is built or
submitted. -/
theorem claim_C4_amended :
    ∀ (scale : Priority → Nat → Nat) (p : Provider) (s : SessionKeyState)
      (tx : TransactionParams) (b : Bool),
    (p.chainId = TEN_CHAIN_ID → s.sessionKey = none →
      (sendTransaction scale p s tx).result = .error noSessionKeyMsg
      ∧ (sendTransaction scale p s tx).trace = [.chainId]
      ∧ (sendTransactionVariant scale p s tx).result = .error noSessionKeyMsg
      ∧ (sendTransactionVariant scale p s tx).trace = [.chainId])
    ∧ ((sendTransaction scale p { s with isActive := b } tx).result
          = (sendTransaction scale p s tx).result
      ∧ (sendTransaction scale p { s with isActive := b } tx).trace
          = (sendTransaction scale p s tx).trace
      ∧ (sendTransactionVariant scale p { s with isActive := b } tx).result
          = (sendTransactionVariant scale p s tx).result
      ∧ (sendTransactionVariant scale p { s with isActive := b } tx).trace
          = (sendTransactionVariant scale p s tx).trace) := by
  intro scale p s tx b
  constructor
  · intro hc hsk
    simp only [sendTransaction, sendTransactionVariant, if_pos hc, hsk]
    exact ⟨by trivial, by trivial, by trivial, by trivial⟩
  · obtain ⟨h1, h2⟩ := sendTransaction_key_only scale p tx { s with isActive := b } s rfl
    obtain ⟨h3, h4⟩ := sendTransactionVariant_key_only scale p tx { s with isActive := b } s rfl
    exact ⟨h1, h2, h3, h4⟩

/-- Witness for claim C4 as amended: the provider is on the right chain
and the stored session key is null, so the NoSessionKey failure fires. -/
theorem claim_C4_witness :
    (Provider.chainId
        ⟨443, fun _ => .ok [], .ok 0, .error "e", .ok 0, .ok "h", [], .ok "h"⟩
      = TEN_CHAIN_ID)
    ∧ (sendTransaction (fun _ b => b)
        ⟨443, fun _ => .ok [], .ok 0, .error "e", .ok 0, .ok "h", [], .ok "h"⟩
        initialState ⟨['0', 'x'], none, none, none, none, none, none⟩).result
      = .error noSessionKeyMsg :=
  ⟨rfl,
    ((claim_C4_amended (fun _ b => b)
        ⟨443, fun _ => .ok [], .ok 0, .error "e", .ok 0, .ok "h", [], .ok "h"⟩
        initialState ⟨['0', 'x'], none, none, none, none, none, none⟩ true).1
      rfl rfl).1⟩

/-- Claim C2 counterexample: in the sendTransaction variant of
src/src/core/transaction.ts the fee calculation has no fallback; when
the fee-history query fails and the caller supplied no fee parameters,
the call propagates the provider error, records it in the state, and
never submits (no actuation call in the trace) — it does not fall back
to fixed constants. -/
theorem claim_C2_counterexample :
    (sendTransaction (fun _ b => b)
        ⟨443, fun _ => .ok ['0', 'x', '1'], .ok 0, .error "fee history unavailable",
          .ok 5, .ok "h", [], .ok "0xhash"⟩
        ⟨some ['0', 'x', 'a', 'b'], true, none, false, none⟩
        ⟨['0', 'x', 'a', 'b'], none, none, some 0, some 100, none, none⟩).result
      = .error "fee history unavailable"
    ∧ (sendTransaction (fun _ b => b)
        ⟨443, fun _ => .ok ['0', 'x', '1'], .ok 0, .error "fee history unavailable",
          .ok 5, .ok "h", [], .ok "0xhash"⟩
        ⟨some ['0', 'x', 'a', 'b'], true, none, false, none⟩
        ⟨['0', 'x', 'a', 'b'], none, none, some 0, some 100, none, none⟩).trace.filter
          isActuation = []
    ∧ (sendTransaction (fun _ b => b)
        ⟨443, fun _ => .ok ['0', 'x', '1'], .ok 0, .error "fee history unavailable",
          .ok 5, .ok "h", [], .ok "0xhash"⟩
        ⟨some ['0', 'x', 'a', 'b'], true, none, false, none⟩
        ⟨['0', 'x', 'a', 'b'], none, none, some 0, some 100, none, none⟩).state.error
      = some "fee history unavailable" :=
  ⟨rfl, by decide, rfl⟩

/-- Claim C2 as amended: the fee fallback holds for the later
sendTransaction variant (the one carried in src/src/utils/encoding.ts),
whose calculateGasFees wraps the fee-history query in a catch-all. When
the query fails and the caller supplied no fee parameters, the fee
computation returns the fixed fallback values (0.1 gwei priority fee,
and the fixed 1 gwei base fee scaled by the tier multiplier) without
throwing, and the transaction is still encoded with those values and
submitted through the session-execution actuation call. The variant in
src/src/core/transaction.ts instead propagates the failure (see the
counterexample). -/
theorem claim_C2_amended :
    ∀ (scale : Priority → Nat → Nat) (p : Provider) (s : SessionKeyState)
      (tx : TransactionParams) (sk : List Char) (n g : Nat) (e h : String),
    p.chainId = TEN_CHAIN_ID → s.sessionKey = some sk →
    tx.maxFeePerGas = none → p.feeHist = .error e →
    tx.nonce = some n → tx.gasLimit = some g → g ≠ 0 → p.executeResp = .ok h →
    calculateGasFeesFallback scale p .MEDIUM
        = (scale .MEDIUM 1000000000 + 100000000, 100000000)
    ∧ (sendTransactionVariant scale p s tx).result = .ok h
    ∧ (sendTransactionVariant scale p s tx).trace
        = [.chainId, .chainId, .feeHistory,
            .execute (txBytes (txItemsVariant p.chainId n 100000000
              (scale .MEDIUM 1000000000 + 100000000) g tx))] := by
  intro scale p s tx sk n g e h hc hsk hmf hfh hn hg hgz hex
  have hfb : calculateGasFeesFallback scale p .MEDIUM
      = (scale .MEDIUM 1000000000 + 100000000, 100000000) := by
    simp [calculateGasFeesFallback, hfh]
  have hrn : resolveNonce p tx = (.ok n, []) := by simp [resolveNonce, hn]
  have hrf : resolveFeesFallback scale p tx
      = (.ok (scale .MEDIUM 1000000000 + 100000000, 100000000), [.feeHistory]) := by
    rw [resolveFeesFallback, hmf, hfb]
  have hrg : resolveGasLimit p tx = (.ok g, []) := by
    simp [resolveGasLimit, hg, hgz]
  refine ⟨hfb, ?_, ?_⟩ <;>
    simp [sendTransactionVariant, if_pos hc, hsk, hrn, hrf, hrg, hex]

/-- Witness for claim C2 as amended, at a concrete provider whose
fee-history query rejects. -/
theorem claim_C2_witness :
    (Provider.feeHist
        ⟨443, fun _ => .ok [], .ok 0, .error "boom", .ok 5, .ok "h", [], .ok "0xhash"⟩
      = .error "boom")
    ∧ (sendTransactionVariant (fun _ b => b)
        ⟨443, fun _ => .ok [], .ok 0, .error "boom", .ok 5, .ok "h", [], .ok "0xhash"⟩
        ⟨some ['0', 'x', 'a', 'b'], true, none, false, none⟩
        ⟨['0', 'x', 'a', 'b'], none, none, some 0, some 100, none, none⟩).result
      = .ok "0xhash" :=
  ⟨rfl,
    (claim_C2_amended (fun _ b => b)
        ⟨443, fun _ => .ok [], .ok 0, .error "boom", .ok 5, .ok "h", [], .ok "0xhash"⟩
        ⟨some ['0', 'x', 'a', 'b'], true, none, false, none⟩
        ⟨['0', 'x', 'a', 'b'], none, none, some 0, some 100, none, none⟩
        ['0', 'x', 'a', 'b'] 0 100 "boom" "0xhash"
        rfl rfl rfl rfl rfl rfl (by decide) rfl).2.1⟩

/-! Helper lemmas for claim C1: the byte payload that the rlp package
derives from a toHex output. -/

theorem hexCharVal_hexDigitChar (d : Nat) (h : d < 16) :
    hexCharVal (hexDigitChar d) = d := by
  interval_cases d <;> rfl

theorem hexPairsToBytes_append_even :
    ∀ (l m : List Char), l.length % 2 = 0 →
      hexPairsToBytes (l ++ m) = hexPairsToBytes l ++ hexPairsToBytes m
  | [], m, _ => by simp [hexPairsToBytes]
  | [a], m, h => by simp at h
  | a :: b :: rest, m, h => by
    simp only [List.cons_append, hexPairsToBytes]
    exact congrArg _ (hexPairsToBytes_append_even rest m
      (by simp only [List.length_cons] at h; omega))

theorem padToEven_append_pair (l : List Char) (a b : Char) :
    padToEven (l ++ [a, b]) = padToEven l ++ [a, b] := by
  unfold padToEven
  have hlen : (l ++ [a, b]).length % 2 = l.length % 2 := by
    simp only [List.length_append, List.length_cons, List.length_nil]
    omega
  rw [hlen]
  by_cases h : l.length % 2 = 1 <;> simp [h]

theorem padToEven_length_even (l : List Char) : (padToEven l).length % 2 = 0 := by
  unfold padToEven
  by_cases h : l.length % 2 = 1 <;> simp [h] <;> omega

/-- Core of claim C1: converting the minimal hexadecimal digit string of
v back to bytes the way the rlp package does (pad to even length, then
hex digit pairs) yields exactly the minimal big-endian base-256
expansion of v. -/
theorem hexPairs_pad_digits :
    ∀ v : Nat,
      hexPairsToBytes (padToEven ((natDigits 16 v).map hexDigitChar)) = natDigits 256 v := by
  intro v
  induction v using Nat.strong_induction_on with
  | _ v ih =>
    by_cases h0 : v = 0
    · subst h0; rfl
    · by_cases hlt256 : v < 256
      · by_cases hlt16 : v < 16
        · have hdig : natDigits 16 v = [v] := by
            rw [natDigits_eq 16 (by norm_num) v, if_neg h0, Nat.div_eq_of_lt hlt16,
              Nat.mod_eq_of_lt hlt16]
            rfl
          have hdig256 : natDigits 256 v = [v] := by
            rw [natDigits_eq 256 (by norm_num) v, if_neg h0, Nat.div_eq_of_lt hlt256,
              Nat.mod_eq_of_lt hlt256]
            rfl
          rw [hdig, hdig256]
          simp only [List.map_cons, List.map_nil, padToEven, List.length_cons,
            List.length_nil]
          have hz : hexCharVal '0' = 0 := rfl
          norm_num [hexPairsToBytes, hexCharVal_hexDigitChar v hlt16, hz]
        · have hd16 : v / 16 < 16 := by omega
          have hd16pos : v / 16 ≠ 0 := by
            have : 16 ≤ v := by omega
            have := Nat.one_le_div_iff (by norm_num : 0 < 16) |>.mpr this
            omega
          have hdig : natDigits 16 v = [v / 16, v % 16] := by
            rw [natDigits_eq 16 (by norm_num) v, if_neg h0,
              natDigits_eq 16 (by norm_num) (v / 16), if_neg hd16pos,
              Nat.div_eq_of_lt hd16, Nat.mod_eq_of_lt hd16]
            rfl
          have hdig256 : natDigits 256 v = [v] := by
            rw [natDigits_eq 256 (by norm_num) v, if_neg h0, Nat.div_eq_of_lt hlt256,
              Nat.mod_eq_of_lt hlt256]
            rfl
          rw [hdig, hdig256]
          simp only [List.map_cons, List.map_nil, padToEven, List.length_cons,
            List.length_nil]
          norm_num [hexPairsToBytes, hexCharVal_hexDigitChar (v / 16) hd16,
            hexCharVal_hexDigitChar (v % 16) (Nat.mod_lt v (by norm_num))]
          have h := Nat.div_add_mod v 16
          omega
      · -- v at least 256: peel two hex digits, one byte
        have h16 : v / 16 ≠ 0 := by
          have : 16 ≤ v := by omega
          have := Nat.one_le_div_iff (by norm_num : 0 < 16) |>.mpr this
          omega
        have hdd : v / 16 / 16 = v / 256 := by
          rw [Nat.div_div_eq_div_mul]
        have hdig : natDigits 16 v
            = natDigits 16 (v / 256) ++ [v / 16 % 16, v % 16] := by
          rw [natDigits_eq 16 (by norm_num) v, if_neg h0,
            natDigits_eq 16 (by norm_num) (v / 16), if_neg h16, hdd,
            List.append_assoc]
          rfl
        have hdig256 : natDigits 256 v = natDigits 256 (v / 256) ++ [v % 256] := by
          rw [natDigits_eq 256 (by norm_num) v, if_neg h0]
        have hpair : [v / 16 % 16, v % 16].map hexDigitChar
            = [hexDigitChar (v / 16 % 16), hexDigitChar (v % 16)] := rfl
        rw [hdig, hdig256, List.map_append, hpair, padToEven_append_pair,
          hexPairsToBytes_append_even _ _ (padToEven_length_even _),
          ih (v / 256) (Nat.div_lt_self (by omega) (by norm_num))]
        congr 1
        have hmm : 16 * (v / 16 % 16) + v % 16 = v % 256 := by omega
        simp only [hexPairsToBytes, hexCharVal_hexDigitChar (v / 16 % 16)
          (Nat.mod_lt _ (by norm_num)), hexCharVal_hexDigitChar (v % 16)
          (Nat.mod_lt _ (by norm_num)), hmm]

/-- The byte payload the rlp package reads from toHex of a positive
value is the minimal big-endian expansion of that value. -/
theorem rlpStrBytes_toHex (v : Nat) (hv : 1 ≤ v) :
    rlpStrBytes (toHex v) = natDigits 256 v := by
  have hne : (natDigits 16 v).map hexDigitChar ≠ [] := by
    intro h
    exact natDigits_ne_nil 16 (by norm_num) v hv (List.map_eq_nil_iff.mp h)
  unfold rlpStrBytes toHex strip0x
  rw [if_neg hne]
  have hstrip :
      ('0' :: 'x' :: (natDigits 16 v).map hexDigitChar).take 2 = ['0', 'x'] := rfl
  rw [if_pos hstrip]
  exact hexPairs_pad_digits v

/-- Claim C1 counterexample: in the transaction array of the
sendTransaction variant in src/src/core/transaction.ts with nonce 0 (and
with an absent value field), the nonce and value slots hold the string
0x0, whose RLP encoding is the single byte 0x00 — not the canonical
empty byte string, whose encoding is the single header byte 0x80. -/
theorem claim_C1_counterexample :
    (txItems 443 0 1 2 3
        ⟨['0', 'x', 'a', 'b'], none, none, some 0, some 3, some 2, some 1⟩).get? 1
      = some (.str ['0', 'x', '0'])
    ∧ (txItems 443 0 1 2 3
        ⟨['0', 'x', 'a', 'b'], none, none, some 0, some 3, some 2, some 1⟩).get? 6
      = some (.str ['0', 'x', '0'])
    ∧ rlpEncode (.str ['0', 'x', '0']) = [0]
    ∧ rlpEncodeBytes [] = [128]
    ∧ ([0] : List Nat) ≠ [128] :=
  ⟨rfl, rfl, rfl, rfl, by decide⟩

/-- Claim C1 as amended: every nonzero numeric field of the encoded
sequence is minimal-length big-endian with no leading zero byte (the
toHex output read back as bytes is exactly the minimal base-256
expansion), but a zero-valued numeric field is carried as the string 0x0
and hence RLP-encoded as the single byte 0x00 rather than the empty
byte string — with the sole exception of the nonce slot in the later
sendTransaction variant, which special-cases nonce 0 to the bare string
0x and therefore does get the canonical empty-string encoding 0x80. -/
theorem claim_C1_amended :
    ∀ (v chainIdInt maxPriorityFeePerGas maxFeePerGas gasLimit : Nat)
      (tx : TransactionParams),
    (1 ≤ v → rlpStrBytes (toHex v) = natDigits 256 v
      ∧ ∀ d, (natDigits 256 v).head? = some d → d ≠ 0)
    ∧ rlpStrBytes (toHex 0) = [0]
    ∧ rlpEncode (.str (toHex 0)) = [0]
    ∧ rlpStrBytes ['0', 'x'] = []
    ∧ rlpEncode (.str ['0', 'x']) = [128]
    ∧ (txItemsVariant chainIdInt 0 maxPriorityFeePerGas maxFeePerGas gasLimit tx).get? 1
        = some (.str ['0', 'x'])
    ∧ (txItems chainIdInt 0 maxPriorityFeePerGas maxFeePerGas gasLimit tx).get? 1
        = some (.str (toHex 0)) := by
  intro v chainIdInt maxPriorityFeePerGas maxFeePerGas gasLimit tx
  exact ⟨fun hv => ⟨rlpStrBytes_toHex v hv,
      fun d hd => natDigits_head_ne_zero 256 (by norm_num) v hv d hd⟩,
    rfl, rfl, rfl, rfl, rfl, rfl⟩

/-- Witness for claim C1 as amended at the value 443. -/
theorem claim_C1_witness :
    1 ≤ 443 ∧ rlpStrBytes (toHex 443) = natDigits 256 443 :=
  ⟨by decide,
    ((claim_C1_amended 443 443 1 2 3
        ⟨['0', 'x'], none, none, none, none, none, none⟩).1 (by decide)).1⟩

/-! Helper lemmas for claim C8: exact values of decimal digit strings. -/

theorem digitVal_digitChar (d : Nat) (h : d < 10) : digitVal (digitChar d) = d := by
  interval_cases d <;> rfl

theorem digitChar_ne_dot (d : Nat) : digitChar d ≠ '.' := by
  unfold digitChar
  split <;> decide

theorem splitOnChar_no_sep (sep : Char) :
    ∀ l : List Char, sep ∉ l → splitOnChar sep l = [l] := by
  intro l
  induction l with
  | nil => intro _; rfl
  | cons c cs ih =>
    intro h
    have hc : c ≠ sep := fun hcs => h (hcs ▸ List.mem_cons_self c cs)
    have hcs : sep ∉ cs := fun hmem => h (List.mem_cons_of_mem c hmem)
    simp only [splitOnChar, ih hcs, if_neg hc]

theorem splitOnChar_append_sep (sep : Char) :
    ∀ (a b : List Char), sep ∉ a → sep ∉ b →
      splitOnChar sep (a ++ sep :: b) = [a, b] := by
  intro a
  induction a with
  | nil =>
    intro b _ hb
    simp [List.nil_append, splitOnChar, splitOnChar_no_sep sep b hb]
  | cons c cs ih =>
    intro b ha hb
    have hc : c ≠ sep := fun hcs => ha (hcs ▸ List.mem_cons_self c cs)
    have hcs : sep ∉ cs := fun hmem => ha (List.mem_cons_of_mem c hmem)
    simp only [List.cons_append, splitOnChar, List.append_eq, ih b hcs hb, if_neg hc]

theorem digitsToNat_eq_val (l : List Char) :
    digitsToNat l = valOfDigits 10 (l.map digitVal) := by
  simp [digitsToNat, valOfDigits, List.foldl_map]

theorem digitsToNat_append (a b : List Char) :
    digitsToNat (a ++ b) = digitsToNat a * 10 ^ b.length + digitsToNat b := by
  rw [digitsToNat_eq_val, List.map_append, valOfDigits_append, List.length_map,
    ← digitsToNat_eq_val, ← digitsToNat_eq_val]

theorem digitsToNat_replicate_zero (k : Nat) :
    digitsToNat (List.replicate k '0') = 0 := by
  induction k with
  | zero => rfl
  | succ k ih =>
    rw [List.replicate_succ]
    have : digitsToNat ('0' :: List.replicate k '0')
        = digitsToNat (List.replicate k '0') := rfl
    rw [this, ih]

theorem digitsToNat_map_digitChar (l : List Nat) (h : ∀ d ∈ l, d < 10) :
    digitsToNat (l.map digitChar) = valOfDigits 10 l := by
  rw [digitsToNat_eq_val, List.map_map, valOfDigits, valOfDigits, List.foldl_map]
  refine List.foldl_ext _ _ 0 ?_
  intro a b hb
  simp only [Function.comp_apply, digitVal_digitChar b (h b hb)]

theorem digitsToNat_decDigitsOf (n : Nat) : digitsToNat (decDigitsOf n) = n := by
  unfold decDigitsOf
  by_cases h0 : n = 0
  · subst h0; rfl
  · rw [if_neg h0, digitsToNat_map_digitChar _ (natDigits_digit_lt 10 (by norm_num) n),
      natDigits_val 10 (by norm_num)]

theorem decDigitsOf_no_dot (n : Nat) : '.' ∉ decDigitsOf n := by
  unfold decDigitsOf
  by_cases h0 : n = 0
  · simp [h0]
  · rw [if_neg h0]
    intro hmem
    rcases List.mem_map.mp hmem with ⟨d, _, hd⟩
    exact digitChar_ne_dot d hd

theorem replicate_zero_no_dot (k : Nat) : '.' ∉ List.replicate k '0' := by
  intro hmem
  have := List.eq_of_mem_replicate hmem
  simp at this

/-- The decimal string built by formatEther denotes exactly wei divided
by 10 to the 18th: the only value loss in formatEther is the final
parseFloat conversion. -/
theorem decValue_formatEtherStr (wei : Nat) :
    decValue (formatEtherStr wei) = (wei : ℚ) / 10 ^ 18 := by
  unfold formatEtherStr
  by_cases hlen : (decDigitsOf wei).length ≤ 18
  · rw [if_pos hlen]
    have hno : '.' ∉ List.replicate (18 - (decDigitsOf wei).length) '0' ++ decDigitsOf wei := by
      intro hmem
      rcases List.mem_append.mp hmem with h | h
      · exact replicate_zero_no_dot _ h
      · exact decDigitsOf_no_dot wei h
    have hsplit := splitOnChar_append_sep '.' ['0']
      (List.replicate (18 - (decDigitsOf wei).length) '0' ++ decDigitsOf wei)
      (by decide) hno
    have hsplit' : splitOnChar '.' ('0' :: '.' :: (List.replicate
          (18 - (decDigitsOf wei).length) '0' ++ decDigitsOf wei))
        = [['0'], List.replicate (18 - (decDigitsOf wei).length) '0' ++ decDigitsOf wei] :=
      hsplit
    have hval : digitsToNat (List.replicate (18 - (decDigitsOf wei).length) '0'
        ++ decDigitsOf wei) = wei := by
      rw [digitsToNat_append, digitsToNat_replicate_zero, digitsToNat_decDigitsOf]
      ring
    have hlen2 : (List.replicate (18 - (decDigitsOf wei).length) '0'
        ++ decDigitsOf wei).length = 18 := by
      simp only [List.length_append, List.length_replicate]
      omega
    simp only [decValue, hsplit', hval, hlen2]
    have hz : digitsToNat ['0'] = 0 := rfl
    rw [hz]
    norm_num
  · rw [if_neg hlen]
    have hnd := decDigitsOf_no_dot wei
    have hno1 : '.' ∉ (decDigitsOf wei).take ((decDigitsOf wei).length - 18) :=
      fun hmem => hnd (List.mem_of_mem_take hmem)
    have hno2 : '.' ∉ (decDigitsOf wei).drop ((decDigitsOf wei).length - 18) :=
      fun hmem => hnd (List.mem_of_mem_drop hmem)
    have hsplit := splitOnChar_append_sep '.'
      ((decDigitsOf wei).take ((decDigitsOf wei).length - 18))
      ((decDigitsOf wei).drop ((decDigitsOf wei).length - 18)) hno1 hno2
    have hlen2 : ((decDigitsOf wei).drop ((decDigitsOf wei).length - 18)).length = 18 := by
      rw [List.length_drop]
      omega
    have hval : digitsToNat ((decDigitsOf wei).take ((decDigitsOf wei).length - 18))
          * 10 ^ 18
        + digitsToNat ((decDigitsOf wei).drop ((decDigitsOf wei).length - 18)) = wei := by
      have h := digitsToNat_append ((decDigitsOf wei).take ((decDigitsOf wei).length - 18))
        ((decDigitsOf wei).drop ((decDigitsOf wei).length - 18))
      rw [List.take_append_drop, digitsToNat_decDigitsOf, hlen2] at h
      exact h.symm
    simp only [decValue, hsplit, hlen2]
    have hq : (wei : ℚ)
        = (digitsToNat ((decDigitsOf wei).take ((decDigitsOf wei).length - 18)) : ℚ)
            * 10 ^ 18
          + (digitsToNat ((decDigitsOf wei).drop ((decDigitsOf wei).length - 18)) : ℚ) := by
      exact_mod_cast hval.symm
    rw [hq]
    have hpow : (10 : ℚ) ^ 18 ≠ 0 := by positivity
    field_simp

/-- Exact value produced by parseEther on split parts with at most 18
fractional digits. -/
theorem parseEtherParts_val (w d : List Char) (hlen : d.length ≤ 18) :
    parseEtherParts w d
      = digitsToNat w * 10 ^ 18 + digitsToNat d * 10 ^ (18 - d.length) := by
  unfold parseEtherParts
  have hlen2 : (d ++ List.replicate (18 - d.length) '0').length = 18 := by
    simp only [List.length_append, List.length_replicate]
    omega
  rw [List.take_of_length_le (le_of_eq hlen2), digitsToNat_append, hlen2,
    digitsToNat_append, digitsToNat_replicate_zero, List.length_replicate]
  ring

/-- Claim C8 counterexample: parseEther then formatEther cannot return
the original numeric value of the amount string
0.000000000000000001 (one wei). parseEther reads it as 1 and the decimal
string formatEther builds denotes exactly 1 / 10^18 — but formatEther
returns the result of parseFloat, an IEEE-754 binary64 number, and every
finite binary64 value is a dyadic rational m / 2^k, while 1 / 10^18 is
not dyadic; so the float that formatEther yields is necessarily
different from the original numeric value. -/
theorem claim_C8_counterexample :
    parseEther ('0' :: '.' :: (List.replicate 17 '0' ++ ['1'])) = 1
    ∧ decValue (formatEtherStr
        (parseEther ('0' :: '.' :: (List.replicate 17 '0' ++ ['1'])))) = 1 / 10 ^ 18
    ∧ ¬ IsDyadicRat (1 / 10 ^ 18) := by
  refine ⟨rfl, ?_, ?_⟩
  · rw [show parseEther ('0' :: '.' :: (List.replicate 17 '0' ++ ['1'])) = 1 from rfl,
      decValue_formatEtherStr]
    norm_num
  · rintro ⟨m, k, hmk⟩
    have h2 : (m : ℚ) * 10 ^ 18 = 2 ^ k := by
      field_simp at hmk
      linarith
    have h3 : (m * 10 ^ 18 : ℤ) = 2 ^ k := by exact_mod_cast h2
    have h5 : (5 : ℤ) ∣ 2 ^ k := ⟨m * 2 ^ 18 * 5 ^ 17, by rw [← h3]; ring⟩
    have hp : Prime (5 : ℤ) := by norm_num
    have := hp.dvd_of_dvd_pow h5
    norm_num at this

/-- Claim C8 as amended: for every well-formed non-negative decimal
amount string (digit characters, a dot, at most 18 fractional digits),
parseEther agrees with its split-part core, and the decimal string that
formatEther builds from the parsed value denotes exactly the numeric
value of the original string. The round trip is exact up to (and only up
to) the final parseFloat conversion of that string to a binary64 float,
which cannot represent all such values (see the counterexample). -/
theorem claim_C8_amended :
    ∀ (wn dn : List Nat), (∀ k ∈ wn, k < 10) → (∀ k ∈ dn, k < 10) → dn.length ≤ 18 →
    parseEther (wn.map digitChar ++ '.' :: dn.map digitChar)
        = parseEtherParts (wn.map digitChar) (dn.map digitChar)
    ∧ decValue (formatEtherStr (parseEtherParts (wn.map digitChar) (dn.map digitChar)))
        = decValue (wn.map digitChar ++ '.' :: dn.map digitChar) := by
  intro wn dn hw hd hlen
  have hw_nodot : '.' ∉ wn.map digitChar := by
    intro hmem
    rcases List.mem_map.mp hmem with ⟨x, _, hx⟩
    exact digitChar_ne_dot x hx
  have hd_nodot : '.' ∉ dn.map digitChar := by
    intro hmem
    rcases List.mem_map.mp hmem with ⟨x, _, hx⟩
    exact digitChar_ne_dot x hx
  have hsplit := splitOnChar_append_sep '.' (wn.map digitChar) (dn.map digitChar)
    hw_nodot hd_nodot
  have hlen' : (dn.map digitChar).length ≤ 18 := by simpa using hlen
  constructor
  · unfold parseEther
    rw [hsplit]
    rfl
  · rw [decValue_formatEtherStr, parseEtherParts_val _ _ hlen']
    simp only [decValue, hsplit, List.length_map]
    push_cast
    norm_num
    have hxy : (10 : ℚ) ^ (18 - dn.length) * 10 ^ dn.length = 1000000000000000000 := by
      rw [← pow_add]
      have h : 18 - dn.length + dn.length = 18 := by omega
      rw [h]
      norm_num
    rw [← hxy]
    have hpow1 : (10 : ℚ) ^ (18 - dn.length) ≠ 0 := by positivity
    have hpow2 : (10 : ℚ) ^ dn.length ≠ 0 := by positivity
    field_simp
    ring

/-- Witness for claim C8 as amended at the amount string 1.5. -/
theorem claim_C8_witness :
    ((5 : Nat) < 10)
    ∧ decValue (formatEtherStr (parseEtherParts ([1].map digitChar) ([5].map digitChar)))
        = decValue ([1].map digitChar ++ '.' :: [5].map digitChar) :=
  ⟨by decide,
    (claim_C8_amended [1] [5] (by decide) (by decide) (by decide)).2⟩

end SessionKeys
